import Mathlib

/-!
Verification of the resume markdown parser and HTML renderer in
`resume-tailoring/scripts/render_pretty_resume.py`.

The Python source is shallowly embedded: each Python string operation used by
the script is modelled as a total Lean function on `List Char` / `String`, the
`parse_markdown` cursor loop becomes a fuel-indexed recursion (the fuel is the
number of input lines, which suffices because every iteration of the source
loop advances the cursor by at least one line), and `build_html` becomes an
explicit concatenation of the template chunks with the interpolated, escaped
fields.
-/

set_option maxRecDepth 8192

namespace Resume

/-! ## Python string primitives -/

/-- Whitespace characters stripped by Python `str.strip()` (ASCII subset). -/
def isPySpace (c : Char) : Bool :=
  c = ' ' || c = '\t' || c = '\n' || c = '\r' || c = '\x0b' || c = '\x0c'

/-- Left strip on character lists. -/
def lstripData (l : List Char) : List Char := l.dropWhile isPySpace

/-- Right strip on character lists. -/
def rstripData (l : List Char) : List Char :=
  (l.reverse.dropWhile isPySpace).reverse

/-- Python `str.strip()` on character lists. -/
def stripData (l : List Char) : List Char := rstripData (lstripData l)

/-- Python `str.strip()`. -/
def pyStrip (s : String) : String := ⟨stripData s.data⟩

/-- Boolean prefix test on character lists. -/
def isPrefixB : List Char → List Char → Bool
  | [], _ => true
  | _ :: _, [] => false
  | a :: as, b :: bs => a = b && isPrefixB as bs

/-- Boolean suffix test on character lists. -/
def isSuffixB (p l : List Char) : Bool := isPrefixB p.reverse l.reverse

/-- Python `str.startswith`. -/
def pyStartsWith (s p : String) : Bool := isPrefixB p.data s.data

/-- Python `str.endswith`. -/
def pyEndsWith (s p : String) : Bool := isSuffixB p.data s.data

/-- Boolean substring test on character lists (Python `in`). -/
def containsSub (p : List Char) : List Char → Bool
  | [] => p.isEmpty
  | c :: cs => isPrefixB p (c :: cs) || containsSub p cs

/-- Python substring test `p in s` on strings. -/
def containsSubStr (p s : String) : Bool := containsSub p.data s.data

/-- Python `s[n:]`. -/
def pyDropStr (n : Nat) (s : String) : String := ⟨s.data.drop n⟩

/-- Python `str.lower()` (ASCII). -/
def pyLower (s : String) : String := ⟨s.data.map Char.toLower⟩

/-- Python `s.strip("*")`: remove all leading and trailing asterisks. -/
def stripStarsData (l : List Char) : List Char :=
  ((l.dropWhile (· = '*')).reverse.dropWhile (· = '*')).reverse

/-- Python `s.strip("*")` on strings. -/
def pyStripStars (s : String) : String := ⟨stripStarsData s.data⟩

/-- Python `s.replace("**", "")`: delete non-overlapping `**` pairs, left to right. -/
def removeSSData : List Char → List Char
  | '*' :: '*' :: cs => removeSSData cs
  | c :: cs => c :: removeSSData cs
  | [] => []

/-- Python `s.replace("**", "")` on strings. -/
def removeSS (s : String) : String := ⟨removeSSData s.data⟩

/-- Python `s.rstrip("\\")`: remove all trailing backslashes. -/
def rstripBackslash (s : String) : String :=
  ⟨(s.data.reverse.dropWhile (· = '\\')).reverse⟩

/-- Python `sep.join(parts)`. -/
def joinSep (sep : String) : List String → String
  | [] => ""
  | [x] => x
  | x :: y :: xs => x ++ sep ++ joinSep sep (y :: xs)

/-- Python `" ".join(parts)`. -/
def joinSpace (parts : List String) : String := joinSep " " parts

/-- Index of the first `(` in a character list (Python `s.find("(")`, total
version: returns the length when absent, which only arises for inputs where
the source guarantees a parenthesis exists). -/
def idxOfParen : List Char → Nat
  | [] => 0
  | c :: cs => if c = '(' then 0 else idxOfParen cs + 1

/-- Line-break characters recognised by Python `str.splitlines`. -/
def isLineBreak (c : Char) : Bool :=
  c = '\n' || c = '\r' || c = '\x0b' || c = '\x0c' ||
  c = '\x1c' || c = '\x1d' || c = '\x1e' || c = '\x85' ||
  c = '\u2028' || c = '\u2029'

/-- Worker for `str.splitlines`: `acc` holds the current line, reversed. -/
def splitlinesAux : List Char → List Char → List String
  | [], acc => if acc.isEmpty then [] else [⟨acc.reverse⟩]
  | '\r' :: '\n' :: rest, acc => ⟨acc.reverse⟩ :: splitlinesAux rest []
  | c :: rest, acc =>
    if isLineBreak c then ⟨acc.reverse⟩ :: splitlinesAux rest []
    else splitlinesAux rest (c :: acc)

/-- Python `str.splitlines()`. -/
def pySplitlines (s : String) : List String := splitlinesAux s.data []

/-- One character of Python `html.escape` (with `quote=True`). -/
def escChar (c : Char) : List Char :=
  if c = '&' then "&amp;".data
  else if c = '<' then "&lt;".data
  else if c = '>' then "&gt;".data
  else if c = '"' then "&quot;".data
  else if c = '\x27' then "&#x27;".data
  else [c]

/-- Python `html.escape` on character lists. -/
def escData : List Char → List Char
  | [] => []
  | c :: cs => escChar c ++ escData cs

/-- Python `html.escape(s, quote=True)`. -/
def htmlEscape (s : String) : String := ⟨escData s.data⟩

/-! ## Data model -/

/-- One experience/project entry (`item` dict in `parse_markdown`). -/
structure Item where
  title : String
  meta : String
  subtitle : String
  bullets : List String
deriving DecidableEq

/-- The record built by `parse_markdown` (the `data` dict). -/
structure ResumeRecord where
  name : String
  role : String
  contacts : List String
  summary : String
  skills : List String
  experience : List Item
  projects : List Item
  fit : List String
  image_from_md : String
deriving DecidableEq

/-- The initial `data` dict of `parse_markdown`. -/
def emptyRecord : ResumeRecord :=
  ⟨"", "", [], "", [], [], [], [], ""⟩

/-! ## Parser -/

/-- The image-line test used in `parse_markdown`:
`s.startswith("![") and "](" in s and s.endswith(")")`. -/
def isImageLine (s : String) : Bool :=
  pyStartsWith s "![" && containsSubStr "](" s && pyEndsWith s ")"

/-- `s[s.find("(") + 1 : -1]`: the image target extracted from a stripped
image line. -/
def extractImage (s : String) : String :=
  ⟨((s.data.drop (idxOfParen s.data + 1)).dropLast)⟩

/-- The pre-pass of `parse_markdown` (lines 29-33): the target of the first
image-looking line, else `""`. -/
def scanImage : List String → String
  | [] => ""
  | l :: ls =>
    let s := pyStrip l
    if isImageLine s then extractImage s else scanImage ls

/-- `while i < n and not lines[i].strip(): i += 1` (line 70-71). -/
def dropBlanks : List String → List String
  | [] => []
  | l :: ls => if pyStrip l = "" then dropBlanks ls else l :: ls

/-- The bullet-collection loop of the item parse (lines 78-87).  Returns the
collected bullets and the unconsumed remainder (the loop breaks at a `## ` or
`### ` heading without consuming it). -/
def collectBullets : List String → List String × List String
  | [] => ([], [])
  | l :: ls =>
    let s := pyStrip l
    if s = "" then collectBullets ls
    else if pyStartsWith s "## " || pyStartsWith s "### " then ([], l :: ls)
    else if pyStartsWith s "- " then
      let r := collectBullets ls
      (pyStrip (pyDropStr 2 s) :: r.1, r.2)
    else collectBullets ls

/-- The summary-collection loop (lines 99-101): take stripped lines while they
are non-blank and do not start with `## `. -/
def collectSummary : List String → List String × List String
  | [] => ([], [])
  | l :: ls =>
    let s := pyStrip l
    if s = "" || pyStartsWith s "## " then ([], l :: ls)
    else
      let r := collectSummary ls
      (s :: r.1, r.2)

/-- Lines 72-74 of the item parse: if the next line starts with `**`, take it
as `meta` with all `**` pairs removed and the result stripped. -/
def itemMeta : List String → String × List String
  | [] => ("", [])
  | l :: rest =>
    if pyStartsWith (pyStrip l) "**" then
      (pyStrip (removeSS (pyStrip l)), rest)
    else ("", l :: rest)

/-- Lines 75-77 of the item parse: if the next line is non-blank, does not
start with `-` and does not start with `## `, take it as `subtitle`. -/
def itemSubtitle : List String → String × List String
  | [] => ("", [])
  | l :: rest =>
    let s := pyStrip l
    if s ≠ "" ∧ ¬ pyStartsWith s "-" ∧ ¬ pyStartsWith s "## " then (s, rest)
    else ("", l :: rest)

/-- Lines 66-87 of the item parse, after the title has been read:
skip blanks; optionally take a `**`-starting line as `meta`; optionally take a
non-blank non-`-` non-`## ` line as `subtitle`; then collect bullets.
Returns `(meta, subtitle, bullets, rest)`. -/
def parseItem (ls : List String) : String × String × List String × List String :=
  let p1 := itemMeta (dropBlanks ls)
  let p2 := itemSubtitle p1.2
  let r := collectBullets p2.2
  (p1.1, p2.1, r.1, r.2)

/-- The main `while i < n` loop of `parse_markdown` (lines 38-119), as a
fuel-indexed recursion over the remaining lines.  `cs` is `current_section`.
Every iteration of the source loop consumes at least one line, so a fuel equal
to the number of lines is always sufficient. -/
def parseLoop : Nat → List String → String → ResumeRecord → ResumeRecord
  | 0, _, _, data => data
  | _ + 1, [], _, data => data
  | fuel + 1, l :: ls, cs, data =>
    let s := pyStrip l
    if s = "" then parseLoop fuel ls cs data
    else if isImageLine s then parseLoop fuel ls cs data
    else if pyStartsWith s "# " ∧ data.name = "" then
      parseLoop fuel ls cs { data with name := pyStrip (pyDropStr 2 s) }
    else if pyStartsWith s "**" ∧ pyEndsWith s "**" ∧ data.role = "" then
      parseLoop fuel ls cs { data with role := pyStrip (pyStripStars s) }
    else if pyStartsWith s "## " then
      parseLoop fuel ls (pyLower (pyStrip (pyDropStr 3 s))) data
    else if pyStartsWith s "### " then
      let title := pyStrip (pyDropStr 4 s)
      let r := parseItem ls
      let item : Item := ⟨title, r.1, r.2.1, r.2.2.1⟩
      let data' :=
        if containsSubStr "project" cs || containsSubStr "highlight" cs then
          { data with projects := data.projects ++ [item] }
        else
          { data with experience := data.experience ++ [item] }
      parseLoop fuel r.2.2.2 cs data'
    else if cs = "professional summary" then
      let r := collectSummary ls
      parseLoop fuel r.2 cs
        { data with summary := pyStrip (joinSpace (s :: r.1)) }
    else if cs = "core skills" ∧ pyStartsWith s "- " then
      parseLoop fuel ls cs
        { data with skills := data.skills ++ [pyStrip (pyDropStr 2 s)] }
    else if containsSubStr "role alignment" cs ∧ pyStartsWith s "- " then
      parseLoop fuel ls cs
        { data with fit := data.fit ++ [pyStrip (pyDropStr 2 s)] }
    else if cs = "" ∧ s ≠ "" ∧ ¬ pyStartsWith s "#" then
      let data' :=
        if s ∈ data.contacts then data
        else { data with contacts := data.contacts ++ [rstripBackslash s] }
      parseLoop fuel ls cs data'
    else parseLoop fuel ls cs data

/-- `parse_markdown` on a list of lines: image pre-pass, then the main loop. -/
def parseLines (lines : List String) : ResumeRecord :=
  parseLoop lines.length lines "" { emptyRecord with image_from_md := scanImage lines }

/-- `parse_markdown(md_text)` (lines 14-121). -/
def parse_markdown (md_text : String) : ResumeRecord :=
  parseLines (pySplitlines md_text)

/-! ## Renderer

`build_html` (lines 146-220) is an f-string; it is embedded as an explicit
concatenation of the literal template chunks with the escaped interpolated
values.  Literal braces of the CSS are written `\x7b`/`\x7d` and apostrophes
`\x27`; the concatenation below reproduces the source text exactly. -/

/-- `"".join(f"<li>{html.escape(x)}</li>" for x in items)` (line 124-125). -/
def _li : List String → String
  | [] => ""
  | x :: xs => "<li>" ++ htmlEscape x ++ "</li>" ++ _li xs

/-- Template text before the first interpolation (`<title>`). -/
def tpl0 : String :=
  "<!doctype html>\n<html lang=\"en\">\n<head>\n  <meta charset=\"utf-8\" />\n  <meta name=\"viewport\" content=\"width=device-width, initial-scale=1\" />\n  <title>"

/-- The embedded CSS of the template (lines 159-194 of the source). -/
def styleCss : String :=
  "    @page \x7b size: A4; margin: 0; \x7d\n" ++
  "    :root \x7b\n" ++
  "      --ink: #132033; --muted: #5a6a7d; --line: #d8e0ea; --panel: #edf3fb;\n" ++
  "      --accent: #0f4c81;\n" ++
  "    \x7d\n" ++
  "    * \x7b box-sizing: border-box; \x7d\n" ++
  "    body \x7b margin: 0; font-family: \"Avenir Next\", \"Segoe UI\", \"Trebuchet MS\", sans-serif; color: var(--ink); \x7d\n" ++
  "    .page \x7b width: 210mm; min-height: 297mm; display: grid; grid-template-columns: 68mm 1fr; \x7d\n" ++
  "    .left \x7b background: linear-gradient(180deg, #0f4c81 0%, #0e3e67 55%, #102f4d 100%); color: #f6f9fd; padding: 14mm 8mm 12mm; \x7d\n" ++
  "    .right \x7b padding: 13mm 12mm 12mm; \x7d\n" ++
  "    .photo \x7b width: 36mm; height: 36mm; margin: 0 auto 6mm; border-radius: 50%; overflow: hidden; border: 2.5mm solid rgba(255,255,255,0.25); background: #fff; \x7d\n" ++
  "    .photo img \x7b width: 100%; height: 100%; object-fit: cover; display: block; \x7d\n" ++
  "    .name \x7b text-align: center; margin: 0; font-size: 20px; line-height: 1.15; font-weight: 700; \x7d\n" ++
  "    .role \x7b text-align: center; margin: 2.5mm 0 8mm; font-size: 10.5px; line-height: 1.35; color: #dce8f6; font-weight: 600; \x7d\n" ++
  "    .left h3 \x7b margin: 8mm 0 3mm; font-size: 10px; text-transform: uppercase; letter-spacing: 1px; color: #b9d7f3; border-top: 0.3mm solid rgba(255,255,255,0.2); padding-top: 2.3mm; \x7d\n" ++
  "    .left p, .left li, .left a \x7b font-size: 9.2px; line-height: 1.45; margin: 0; color: #f2f7fc; text-decoration: none; word-break: break-word; \x7d\n" ++
  "    .contact-list \x7b display: grid; gap: 2.2mm; \x7d\n" ++
  "    .left ul \x7b margin: 1mm 0 0; padding-left: 3.8mm; \x7d\n" ++
  "    .skills-list \x7b margin-top: 1.6mm; display: grid; gap: 1.6mm; \x7d\n" ++
  "    .skills-list li \x7b font-size: 8.8px; line-height: 1.25; \x7d\n" ++
  "    .headline \x7b display: flex; justify-content: space-between; align-items: baseline; gap: 5mm; margin-bottom: 4mm; \x7d\n" ++
  "    .headline h1 \x7b margin: 0; font-size: 25px; line-height: 1.05; color: var(--accent); \x7d\n" ++
  "    .headline .target \x7b margin: 0; font-size: 10px; color: var(--muted); text-align: right; font-weight: 600; \x7d\n" ++
  "    .summary \x7b background: var(--panel); border-left: 1.2mm solid var(--accent); border-radius: 1.2mm; padding: 3.3mm 3.6mm; font-size: 10.2px; line-height: 1.5; margin-bottom: 5.4mm; \x7d\n" ++
  "    .section \x7b margin-bottom: 5.2mm; \x7d\n" ++
  "    .section h2 \x7b margin: 0 0 2.8mm; font-size: 11px; text-transform: uppercase; letter-spacing: 1px; color: var(--accent); border-bottom: 0.35mm solid var(--line); padding-bottom: 1.5mm; \x7d\n" ++
  "    .item \x7b margin-bottom: 3.1mm; \x7d\n" ++
  "    .row \x7b display: flex; justify-content: space-between; align-items: baseline; gap: 4mm; \x7d\n" ++
  "    .row .title \x7b font-size: 11px; font-weight: 700; color: #10253a; \x7d\n" ++
  "    .row .meta \x7b font-size: 9px; color: var(--muted); white-space: nowrap; font-weight: 600; \x7d\n" ++
  "    .sub \x7b margin-top: 0.7mm; font-size: 9.6px; color: #30435a; font-weight: 600; \x7d\n" ++
  "    ul.points \x7b margin: 1.4mm 0 0; padding-left: 4.3mm; \x7d\n" ++
  "    ul.points li \x7b font-size: 9.5px; line-height: 1.45; margin-bottom: 1.2mm; \x7d\n" ++
  "    .fit-box \x7b display: grid; grid-template-columns: 1fr 1fr; gap: 2.2mm; \x7d\n" ++
  "    .fit \x7b background: #f8fbff; border: 0.3mm solid var(--line); border-radius: 1.2mm; padding: 2.4mm 2.8mm; font-size: 9.2px; line-height: 1.4; \x7d\n" ++
  "    .fit strong \x7b display: block; color: var(--accent); margin-bottom: 0.7mm; font-size: 9.3px; text-transform: uppercase; letter-spacing: 0.4px; \x7d\n"

/-- Template text from after the title interpolation up to the style block. -/
def tpl1a : String := " - Resume</title>\n  <style>\n"

/-- Template text from the end of the style block up to the photo element. -/
def tpl1b : String :=
  "  </style>\n</head>\n<body>\n  <main class=\"page\">\n    <aside class=\"left\">\n      "

/-- The opening of the photo element. -/
def tplPhoto : String := "<div class=\"photo\"><img "

/-- The `src="` attribute opener before the profile-image interpolation. -/
def srcAttr : String := "src=\""

/-- Between the profile-image and the `alt` interpolation. -/
def tplAlt : String := "\" alt=\""

/-- The end of the photo element. -/
def tplPhotoEnd : String := "\" /></div>"

/-- After the photo element, up to the name heading. -/
def tpl2 : String := "\n      <h2 class=\"name\">"

/-- After the name, up to the role paragraph. -/
def tpl3 : String := "</h2>\n      <p class=\"role\">"

/-- After the role, up to the contact list. -/
def tpl4 : String := "</p>\n      <h3>Contact</h3>\n      <div class=\"contact-list\">"

/-- After the contacts, up to the skills list. -/
def tpl5 : String := "</div>\n      <h3>Core Skills</h3>\n      <ul class=\"skills-list\">"

/-- After the skills, up to the fixed headline. -/
def tpl6 : String :=
  "</ul>\n    </aside>\n    <section class=\"right\">\n      <div class=\"headline\">\n        "

/-- The fixed main-column headline of the template (line 210). -/
def h1Headline : String := "<h1>iOS Engineer Resume</h1>"

/-- Between the fixed headline and the optional target label. -/
def tpl6b : String := "\n        "

/-- After the headline block, up to the summary callout. -/
def tpl7 : String := "\n      </div>\n      <div class=\"summary\">"

/-- After the summary, up to the experience section. -/
def tpl8 : String := "</div>\n      <div class=\"section\"><h2>Professional Experience</h2>"

/-- After the experience items, up to the projects section. -/
def tpl9 : String :=
  "</div>\n      <div class=\"section\"><h2>Selected Project Highlights</h2>"

/-- After the project items, up to the fit grid. -/
def tpl10 : String :=
  "</div>\n      <div class=\"section\"><h2>Role Fit</h2><div class=\"fit-box\">"

/-- The closing markup of the template. -/
def tpl11 : String := "</div></div>\n    </section>\n  </main>\n</body>\n</html>"

/-- Leading text of one item block in `_items` (line 132-135). -/
def itmA : String :=
  "\n            <div class=\"item\">\n              <div class=\"row\">\n                <div class=\"title\">"

/-- Between the title and the meta of an item block. -/
def itmB : String := "</div>\n                <div class=\"meta\">"

/-- Between the meta and the optional subtitle of an item block. -/
def itmC : String := "</div>\n              </div>\n              "

/-- Between the subtitle slot and the bullet list of an item block. -/
def itmD : String := "\n              <ul class=\"points\">"

/-- Closing text of one item block. -/
def itmE : String := "</ul>\n            </div>\n            "

/-- One block of `_items` (lines 130-142). -/
def itemBlock (item : Item) : String :=
  itmA ++ htmlEscape item.title ++ itmB ++ htmlEscape item.meta ++ itmC ++
  (if item.subtitle ≠ "" then
    "<p class=\x27sub\x27>" ++ htmlEscape item.subtitle ++ "</p>"
  else "") ++
  itmD ++ _li item.bullets ++ itmE

/-- `_items` (lines 128-143): the blocks joined with `"\n"`. -/
def _items (items : List Item) : String := joinSep "\n" (items.map itemBlock)

/-- Concatenation of rendered pieces (`"".join` over a list). -/
def catMap (f : α → String) : List α → String
  | [] => ""
  | x :: xs => f x ++ catMap f xs

/-- One fit box (line 147-149). -/
def fitBox (point : String) : String :=
  "<div class=\x27fit\x27><strong>Fit</strong>" ++ htmlEscape point ++ "</div>"

/-- `fit_boxes` (lines 147-149): boxes for the first four fit entries. -/
def fitBoxes (fit : List String) : String := catMap fitBox (fit.take 4)

/-- One contact paragraph (line 204). -/
def contactP (c : String) : String := "<p>" ++ htmlEscape c ++ "</p>"

/-- The contact list markup (line 204): first four contacts. -/
def contactsHtml (contacts : List String) : String :=
  catMap contactP (contacts.take 4)

/-- `headline_right` (line 150). -/
def headlineRight (target_label : String) : String :=
  if target_label ≠ "" then
    "<p class=\x27target\x27>" ++ htmlEscape target_label ++ "</p>"
  else ""

/-- `build_html(data, profile_image, target_label)` (lines 146-220). -/
def build_html (data : ResumeRecord) (profile_image target_label : String) : String :=
  tpl0 ++ htmlEscape data.name ++ tpl1a ++ styleCss ++ tpl1b ++ tplPhoto ++
  srcAttr ++ htmlEscape profile_image ++ tplAlt ++ htmlEscape data.name ++
  tplPhotoEnd ++ tpl2 ++
  htmlEscape data.name ++ tpl3 ++
  htmlEscape data.role ++ tpl4 ++
  contactsHtml data.contacts ++ tpl5 ++
  _li (data.skills.take 12) ++ tpl6 ++
  h1Headline ++ tpl6b ++ headlineRight target_label ++ tpl7 ++
  htmlEscape data.summary ++ tpl8 ++
  _items data.experience ++ tpl9 ++
  _items data.projects ++ tpl10 ++
  fitBoxes data.fit ++ tpl11

/-- The fixed placeholder profile image URI (line 257 of the source). -/
def placeholderImage : String :=
  "https://dummyimage.com/400x400/e6eef7/7f8fa3.jpg&text=Profile"

/-- The profile-image resolution of `main` (lines 255-257):
`profile_image = args.profile_image or parsed["image_from_md"] or ""` followed
by the placeholder substitution when still empty. -/
def resolveProfileImage (arg image_from_md : String) : String :=
  let p := if arg ≠ "" then arg else if image_from_md ≠ "" then image_from_md else ""
  if p = "" then placeholderImage else p

/-- The pure render path of `main` (lines 252-259): parse the markdown,
resolve the profile image, build the HTML document. -/
def render_from_md (md_text arg target_label : String) : String :=
  let parsed := parse_markdown md_text
  build_html parsed (resolveProfileImage arg parsed.image_from_md) target_label

/-! ## Substring theory for the Boolean string primitives -/

theorem isPrefixB_iff (p l : List Char) : isPrefixB p l = true ↔ ∃ t, l = p ++ t := by
  induction p generalizing l with
  | nil => simp [isPrefixB]
  | cons a as ih =>
    cases l with
    | nil => simp [isPrefixB]
    | cons b bs =>
      simp only [isPrefixB, Bool.and_eq_true, decide_eq_true_eq, ih, List.cons_append,
        List.cons.injEq]
      constructor
      · rintro ⟨rfl, t, rfl⟩; exact ⟨t, rfl, rfl⟩
      · rintro ⟨t, rfl, rfl⟩; exact ⟨rfl, t, rfl⟩

theorem isSuffixB_iff (p l : List Char) : isSuffixB p l = true ↔ ∃ u, l = u ++ p := by
  unfold isSuffixB
  rw [isPrefixB_iff]
  constructor
  · rintro ⟨t, ht⟩
    refine ⟨t.reverse, ?_⟩
    have := congrArg List.reverse ht
    simpa using this
  · rintro ⟨u, rfl⟩
    exact ⟨u.reverse, by simp⟩

theorem isPrefixB_self_append (p t : List Char) : isPrefixB p (p ++ t) = true :=
  (isPrefixB_iff p (p ++ t)).2 ⟨t, rfl⟩

theorem isSuffixB_self (p : List Char) : isSuffixB p p = true :=
  (isSuffixB_iff p p).2 ⟨[], rfl⟩

theorem isSuffixB_cons (s : List Char) (c : Char) (l : List Char)
    (h : isSuffixB s l = true) : isSuffixB s (c :: l) = true := by
  rcases (isSuffixB_iff s l).1 h with ⟨u, rfl⟩
  exact (isSuffixB_iff s (c :: (u ++ s))).2 ⟨c :: u, rfl⟩

theorem containsSub_iff (p l : List Char) :
    containsSub p l = true ↔ ∃ u v, l = u ++ p ++ v := by
  induction l with
  | nil =>
    simp only [containsSub, List.isEmpty_iff]
    constructor
    · rintro rfl; exact ⟨[], [], rfl⟩
    · rintro ⟨u, v, h⟩
      rcases List.append_eq_nil.1 h.symm with ⟨h1, h2⟩
      exact (List.append_eq_nil.1 h1).2
  | cons c cs ih =>
    simp only [containsSub, Bool.or_eq_true, ih, isPrefixB_iff]
    constructor
    · rintro (⟨t, ht⟩ | ⟨u, v, rfl⟩)
      · exact ⟨[], t, by simp [ht]⟩
      · exact ⟨c :: u, v, rfl⟩
    · rintro ⟨u, v, huv⟩
      cases u with
      | nil => exact Or.inl ⟨v, by simpa using huv⟩
      | cons d ds =>
        simp only [List.cons_append] at huv
        injection huv with hc hcs
        exact Or.inr ⟨ds, v, hcs⟩

theorem containsSub_append_left (p a b : List Char)
    (h : containsSub p a = true) : containsSub p (a ++ b) = true := by
  rcases (containsSub_iff p a).1 h with ⟨u, v, rfl⟩
  exact (containsSub_iff p _).2 ⟨u, v ++ b, by simp⟩

theorem containsSub_append_right (p a b : List Char)
    (h : containsSub p b = true) : containsSub p (a ++ b) = true := by
  rcases (containsSub_iff p b).1 h with ⟨u, v, rfl⟩
  exact (containsSub_iff p _).2 ⟨a ++ u, v, by simp⟩

theorem containsSub_self_append (p t : List Char) :
    containsSub p (p ++ t) = true :=
  (containsSub_iff p _).2 ⟨[], t, rfl⟩

theorem isPrefixB_append_cases (p x y : List Char) (h : isPrefixB p (x ++ y) = true) :
    isPrefixB p x = true ∨ ∃ t, p = x ++ t ∧ isPrefixB t y = true := by
  induction x generalizing p with
  | nil => exact Or.inr ⟨p, rfl, by simpa using h⟩
  | cons c x' ih =>
    cases p with
    | nil => exact Or.inl rfl
    | cons d p' =>
      simp only [List.cons_append, isPrefixB, Bool.and_eq_true, decide_eq_true_eq] at h
      rcases h with ⟨rfl, h2⟩
      rcases ih p' h2 with h3 | ⟨t, rfl, h4⟩
      · exact Or.inl (by simp [isPrefixB, h3])
      · exact Or.inr ⟨t, by simp, h4⟩

theorem containsSub_decomp (p a b : List Char) (h : containsSub p (a ++ b) = true) :
    containsSub p a = true ∨ containsSub p b = true ∨
      ∃ s t, p = s ++ t ∧ s ≠ [] ∧ t ≠ [] ∧ isSuffixB s a = true ∧ isPrefixB t b = true := by
  induction a with
  | nil => exact Or.inr (Or.inl (by simpa using h))
  | cons c a' ih =>
    rw [List.cons_append] at h
    simp only [containsSub, Bool.or_eq_true] at h
    rcases h with h | h
    · rcases isPrefixB_append_cases p (c :: a') b h with h1 | ⟨t, hpt, h2⟩
      · rcases (isPrefixB_iff p (c :: a')).1 h1 with ⟨t, ht⟩
        exact Or.inl ((containsSub_iff p (c :: a')).2 ⟨[], t, by simpa using ht⟩)
      · cases t with
        | nil =>
          have hp : p = c :: a' := by simpa using hpt
          exact Or.inl ((containsSub_iff p (c :: a')).2 ⟨[], [], by simp [hp]⟩)
        | cons e t' =>
          exact Or.inr (Or.inr ⟨c :: a', e :: t', hpt, by simp, by simp,
            isSuffixB_self (c :: a'), h2⟩)
    · rcases ih h with h1 | h1 | ⟨s, t, rfl, hs, ht, hsuf, hpre⟩
      · rcases (containsSub_iff p a').1 h1 with ⟨u, v, rfl⟩
        exact Or.inl ((containsSub_iff _ _).2 ⟨c :: u, v, rfl⟩)
      · exact Or.inr (Or.inl h1)
      · exact Or.inr (Or.inr ⟨s, t, rfl, hs, ht, isSuffixB_cons s c a' hsuf, hpre⟩)

theorem isSuffixB_decomp (s a b : List Char) (h : isSuffixB s (a ++ b) = true) :
    isSuffixB s b = true ∨ ∃ s1, s = s1 ++ b ∧ isSuffixB s1 a = true := by
  unfold isSuffixB at h
  rw [List.reverse_append] at h
  rcases isPrefixB_append_cases s.reverse b.reverse a.reverse h with h1 | ⟨t, ht, h2⟩
  · exact Or.inl h1
  · right
    refine ⟨t.reverse, ?_, ?_⟩
    · have := congrArg List.reverse ht
      simpa using this
    · unfold isSuffixB
      simpa using h2

/-! ## `<script>`-safety of the rendered document

`Safe l` says that `l` neither contains the raw character sequence
`<script>` nor ends in a proper nonempty prefix of it.  `Safe` is closed
under concatenation; every literal template chunk is `Safe` (checked by
computation) and every escaped interpolation is `Safe` because escaping
produces no `<` at all, so the whole rendered document is `Safe`. -/

/-- The raw character sequence whose absence certifies escaping. -/
def scriptPat : List Char := "<script>".data

/-- `l` has no `<script>` occurrence and no suffix that is a proper
nonempty prefix of `<script>`. -/
def Safe (l : List Char) : Prop :=
  containsSub scriptPat l = false ∧
  ∀ k, k < 7 → isSuffixB (scriptPat.take (k + 1)) l = false

instance instDecidableSafe (l : List Char) : Decidable (Safe l) := by
  unfold Safe; infer_instance

theorem safe_nil : Safe ([] : List Char) := by decide

theorem safe_append {a b : List Char} (ha : Safe a) (hb : Safe b) :
    Safe (a ++ b) := by
  have hlen : scriptPat.length = 8 := by decide
  constructor
  · by_contra hcon
    rw [Bool.not_eq_false] at hcon
    rcases containsSub_decomp scriptPat a b hcon with h | h | ⟨s, t, hst, hs, ht, hsuf, hpre⟩
    · exact absurd h (by simp [ha.1])
    · exact absurd h (by simp [hb.1])
    · have hsl : s.length ≤ 7 := by
        have := congrArg List.length hst
        simp [hlen] at this
        have htl : 1 ≤ t.length := by
          cases t with
          | nil => exact absurd rfl ht
          | cons x xs => simp
        omega
      have hs1 : 1 ≤ s.length := by
        cases s with
        | nil => exact absurd rfl hs
        | cons x xs => simp
      have hse : s = scriptPat.take s.length := by
        rw [hst]
        exact (List.take_left s t).symm
      have := ha.2 (s.length - 1) (by omega)
      rw [show s.length - 1 + 1 = s.length by omega, ← hse] at this
      exact absurd hsuf (by simp [this])
  · intro k hk
    by_contra hcon
    rw [Bool.not_eq_false] at hcon
    rcases isSuffixB_decomp (scriptPat.take (k + 1)) a b hcon with h | ⟨s1, hs1, hsuf⟩
    · exact absurd h (by simp [hb.2 k hk])
    · cases s1 with
      | nil =>
        simp only [List.nil_append] at hs1
        have : isSuffixB (scriptPat.take (k + 1)) b = true := by
          rw [hs1]; exact isSuffixB_self b
        exact absurd this (by simp [hb.2 k hk])
      | cons c s1' =>
        have hlen1 : s1'.length + 1 ≤ k + 1 := by
          have := congrArg List.length hs1
          simp [List.length_take, hlen] at this
          omega
        have hse : (c :: s1') = scriptPat.take (s1'.length + 1) := by
          have h1 : ((c :: s1') ++ b).take (c :: s1').length = c :: s1' :=
            List.take_left (c :: s1') b
          rw [List.length_cons] at h1
          rw [← h1, ← hs1, List.take_take]
          congr 1
          omega
        have := ha.2 s1'.length (by omega)
        rw [← hse] at this
        exact absurd hsuf (by simp [this])

theorem safe_of_no_lt {l : List Char} (h : ∀ c ∈ l, c ≠ '<') : Safe l := by
  constructor
  · by_contra hcon
    rw [Bool.not_eq_false] at hcon
    rcases (containsSub_iff scriptPat l).1 hcon with ⟨u, v, rfl⟩
    have hmem : '<' ∈ u ++ scriptPat ++ v := by
      have : '<' ∈ scriptPat := by decide
      simp [this]
    exact h '<' hmem rfl
  · intro k hk
    by_contra hcon
    rw [Bool.not_eq_false] at hcon
    rcases (isSuffixB_iff _ l).1 hcon with ⟨u, rfl⟩
    have hmem : '<' ∈ scriptPat.take (k + 1) := by
      have : scriptPat.take (k + 1) = '<' :: ("script>".data.take k) := by
        show List.take (k + 1) ('<' :: "script>".data) = _
        rw [List.take_succ_cons]
      rw [this]
      exact List.mem_cons_self _ _
    exact h '<' (by simp [hmem]) rfl

theorem escData_append (a b : List Char) :
    escData (a ++ b) = escData a ++ escData b := by
  induction a with
  | nil => rfl
  | cons c cs ih => simp [escData, ih]

theorem no_lt_escChar (c d : Char) (hd : d ∈ escChar c) : d ≠ '<' := by
  unfold escChar at hd
  split_ifs at hd with h1 h2 h3 h4 h5
  · intro heq; subst heq; exact absurd hd (by decide)
  · intro heq; subst heq; exact absurd hd (by decide)
  · intro heq; subst heq; exact absurd hd (by decide)
  · intro heq; subst heq; exact absurd hd (by decide)
  · intro heq; subst heq; exact absurd hd (by decide)
  · simp at hd; subst hd; exact h2

theorem no_lt_escData (l : List Char) : ∀ d ∈ escData l, d ≠ '<' := by
  induction l with
  | nil => intro d hd; exact absurd hd (by simp [escData])
  | cons c cs ih =>
    intro d hd
    simp only [escData, List.mem_append] at hd
    rcases hd with hd | hd
    · exact no_lt_escChar c d hd
    · exact ih d hd

theorem safe_escData (l : List Char) : Safe (escData l) :=
  safe_of_no_lt (no_lt_escData l)

theorem containsSub_escData (q x : List Char) (h : containsSub q x = true) :
    containsSub (escData q) (escData x) = true := by
  rcases (containsSub_iff q x).1 h with ⟨u, v, rfl⟩
  rw [escData_append, escData_append]
  exact (containsSub_iff _ _).2 ⟨escData u, escData v, rfl⟩

/-- `(s ++ t).data = s.data ++ t.data`. -/
theorem strData_append (s t : String) : (s ++ t).data = s.data ++ t.data := by
  cases s; cases t; rfl

/-- `(String.mk l).data = l`. -/
theorem strData_mk (l : List Char) : (String.mk l).data = l := rfl

/-- `(htmlEscape s).data = escData s.data`. -/
theorem strData_htmlEscape (s : String) : (htmlEscape s).data = escData s.data := rfl

theorem safe_styleCss : Safe styleCss.data := by
  unfold styleCss
  simp only [strData_append]
  repeat' apply safe_append
  all_goals decide

theorem safe_li (xs : List String) : Safe (_li xs).data := by
  induction xs with
  | nil => exact safe_nil
  | cons x xs ih =>
    simp only [_li, strData_append, strData_htmlEscape]
    exact safe_append (safe_append (safe_append (by decide) (safe_escData _)) (by decide)) ih

theorem safe_catMap {α : Type} (f : α → String) (hf : ∀ x, Safe (f x).data) :
    ∀ l : List α, Safe (catMap f l).data := by
  intro l
  induction l with
  | nil => exact safe_nil
  | cons x xs ih =>
    simp only [catMap, strData_append]
    exact safe_append (hf x) ih

theorem safe_contactP (c : String) : Safe (contactP c).data := by
  simp only [contactP, strData_append, strData_htmlEscape]
  exact safe_append (safe_append (by decide) (safe_escData _)) (by decide)

theorem safe_contactsHtml (cs : List String) : Safe (contactsHtml cs).data :=
  safe_catMap contactP safe_contactP _

theorem safe_fitBox (p : String) : Safe (fitBox p).data := by
  simp only [fitBox, strData_append, strData_htmlEscape]
  exact safe_append (safe_append (by decide) (safe_escData _)) (by decide)

theorem safe_fitBoxes (fit : List String) : Safe (fitBoxes fit).data :=
  safe_catMap fitBox safe_fitBox _

theorem safe_itemBlock (it : Item) : Safe (itemBlock it).data := by
  unfold itemBlock
  split_ifs with h
  · simp only [strData_append, strData_htmlEscape]
    repeat' apply safe_append
    all_goals first | exact safe_escData _ | exact safe_li _ | decide
  · simp only [strData_append, strData_htmlEscape]
    repeat' apply safe_append
    all_goals first | exact safe_escData _ | exact safe_li _ | decide

theorem safe_joinSep (sep : String) (hsep : Safe sep.data) (parts : List String)
    (hp : ∀ x ∈ parts, Safe x.data) : Safe (joinSep sep parts).data := by
  induction parts with
  | nil => exact safe_nil
  | cons x xs ih =>
    cases xs with
    | nil => exact hp x (List.mem_cons_self x [])
    | cons y ys =>
      simp only [joinSep, strData_append]
      exact safe_append (safe_append (hp x (by simp)) hsep)
        (ih (fun z hz => hp z (by simp [hz])))

theorem safe_items (items : List Item) : Safe (_items items).data := by
  unfold _items
  refine safe_joinSep "\n" (by decide) _ ?_
  intro x hx
  rcases List.mem_map.1 hx with ⟨it, _, rfl⟩
  exact safe_itemBlock it

theorem safe_headlineRight (lab : String) : Safe (headlineRight lab).data := by
  unfold headlineRight
  split_ifs with h
  · simp only [strData_append, strData_htmlEscape]
    exact safe_append (safe_append (by decide) (safe_escData _)) (by decide)
  · exact safe_nil

/-- The whole rendered document is `Safe`: every interpolated field is
escaped, so a raw `<script>` can never appear. -/
theorem build_html_safe (d : ResumeRecord) (img lab : String) :
    Safe (build_html d img lab).data := by
  unfold build_html
  simp only [strData_append, strData_htmlEscape]
  refine safe_append ?_ (by decide)
  refine safe_append ?_ (safe_fitBoxes _)
  refine safe_append ?_ (by decide)
  refine safe_append ?_ (safe_items _)
  refine safe_append ?_ (by decide)
  refine safe_append ?_ (safe_items _)
  refine safe_append ?_ (by decide)
  refine safe_append ?_ (safe_escData _)
  refine safe_append ?_ (by decide)
  refine safe_append ?_ (safe_headlineRight _)
  refine safe_append ?_ (by decide)
  refine safe_append ?_ (by decide)
  refine safe_append ?_ (by decide)
  refine safe_append ?_ (safe_li _)
  refine safe_append ?_ (by decide)
  refine safe_append ?_ (safe_contactsHtml _)
  refine safe_append ?_ (by decide)
  refine safe_append ?_ (safe_escData _)
  refine safe_append ?_ (by decide)
  refine safe_append ?_ (safe_escData _)
  refine safe_append ?_ (by decide)
  refine safe_append ?_ (by decide)
  refine safe_append ?_ (safe_escData _)
  refine safe_append ?_ (by decide)
  refine safe_append ?_ (safe_escData _)
  refine safe_append ?_ (by decide)
  refine safe_append ?_ (by decide)
  refine safe_append ?_ (by decide)
  refine safe_append ?_ safe_styleCss
  refine safe_append ?_ (by decide)
  refine safe_append ?_ (safe_escData _)
  exact (by decide)

/-! ## Basic parser lemmas -/

theorem dropBlanks_suffix (ls : List String) : dropBlanks ls <:+ ls := by
  induction ls with
  | nil => exact List.suffix_rfl
  | cons l ls ih =>
    simp only [dropBlanks]
    split_ifs with h
    · exact ih.trans (List.suffix_cons l ls)
    · exact List.suffix_rfl

theorem itemMeta_suffix (ls : List String) : (itemMeta ls).2 <:+ ls := by
  cases ls with
  | nil => exact List.suffix_rfl
  | cons l rest =>
    simp only [itemMeta]
    split_ifs with h
    · exact List.suffix_cons l rest
    · exact List.suffix_rfl

theorem itemSubtitle_suffix (ls : List String) : (itemSubtitle ls).2 <:+ ls := by
  cases ls with
  | nil => exact List.suffix_rfl
  | cons l rest =>
    simp only [itemSubtitle]
    split_ifs with h
    · exact List.suffix_cons l rest
    · exact List.suffix_rfl

theorem collectBullets_suffix (ls : List String) : (collectBullets ls).2 <:+ ls := by
  induction ls with
  | nil => exact List.suffix_rfl
  | cons l ls ih =>
    simp only [collectBullets]
    split_ifs with h1 h2 h3
    · exact ih.trans (List.suffix_cons l ls)
    · exact List.suffix_rfl
    · exact ih.trans (List.suffix_cons l ls)
    · exact ih.trans (List.suffix_cons l ls)

theorem collectSummary_suffix (ls : List String) : (collectSummary ls).2 <:+ ls := by
  induction ls with
  | nil => exact List.suffix_rfl
  | cons l ls ih =>
    simp only [collectSummary]
    split_ifs with h1
    · exact List.suffix_rfl
    · exact ih.trans (List.suffix_cons l ls)

theorem parseItem_suffix (ls : List String) : (parseItem ls).2.2.2 <:+ ls := by
  unfold parseItem
  exact (collectBullets_suffix _).trans
    ((itemSubtitle_suffix _).trans ((itemMeta_suffix _).trans (dropBlanks_suffix ls)))

/-- `pyStartsWith` in existential form. -/
theorem pyStartsWith_iff (s p : String) :
    pyStartsWith s p = true ↔ ∃ t, s.data = p.data ++ t := by
  unfold pyStartsWith
  exact isPrefixB_iff _ _

theorem isPrefixB_trans {p q l : List Char} (h1 : isPrefixB p q = true)
    (h2 : isPrefixB q l = true) : isPrefixB p l = true := by
  rcases (isPrefixB_iff p q).1 h1 with ⟨t, rfl⟩
  rcases (isPrefixB_iff _ l).1 h2 with ⟨u, rfl⟩
  exact (isPrefixB_iff _ _).2 ⟨t ++ u, by simp⟩

/-- A line starting with `p` cannot also start with a `q` that is at most as
long as `p` but is not a prefix of `p`. -/
theorem not_startsWith_of_startsWith (s p q : String) (hp : pyStartsWith s p = true)
    (hlen : q.data.length ≤ p.data.length) (hq : isPrefixB q.data p.data = false) :
    pyStartsWith s q = false := by
  by_contra hcon
  rw [Bool.not_eq_false] at hcon
  rcases (pyStartsWith_iff s p).1 hp with ⟨t, ht⟩
  rcases (pyStartsWith_iff s q).1 hcon with ⟨u, hu⟩
  have h1 : (q.data ++ u).take q.data.length = q.data := List.take_left _ _
  rw [← hu, ht, List.take_append_of_le_length hlen] at h1
  have : isPrefixB q.data p.data = true := by
    rw [← h1]
    exact (isPrefixB_iff _ _).2 ⟨p.data.drop q.data.length, by simp⟩
  rw [this] at hq
  exact absurd hq (by decide)

/-- A string starting with a nonempty prefix is nonempty. -/
theorem ne_empty_of_startsWith (s p : String) (hp : pyStartsWith s p = true)
    (hne : p.data ≠ []) : s ≠ "" := by
  rcases (pyStartsWith_iff s p).1 hp with ⟨t, ht⟩
  intro hs
  subst hs
  rw [show ("" : String).data = [] from rfl] at ht
  rcases List.append_eq_nil.1 ht.symm with ⟨h1, _⟩
  exact hne h1

/-! ## Preservation lemmas for the main parse loop -/

/-- The main loop never changes `image_from_md` (it is set only in the
pre-pass). -/
theorem parseLoop_image (fuel : Nat) : ∀ lines cs data,
    (parseLoop fuel lines cs data).image_from_md = data.image_from_md := by
  induction fuel with
  | zero => intro lines cs data; rfl
  | succ f ih =>
    intro lines cs data
    cases lines with
    | nil => rfl
    | cons l ls =>
      simp only [parseLoop]
      simp only [apply_ite ResumeRecord.image_from_md, ih]
      simp only [ite_self]

/-- If no line (stripped) starts with `# `, the loop never sets `name`. -/
theorem parseLoop_name_pres (fuel : Nat) : ∀ lines cs data,
    (∀ l ∈ lines, pyStartsWith (pyStrip l) "# " = false) →
    (parseLoop fuel lines cs data).name = data.name := by
  induction fuel with
  | zero => intro lines cs data _; rfl
  | succ f ih =>
    intro lines cs data hno
    cases lines with
    | nil => rfl
    | cons l ls =>
      have hl : pyStartsWith (pyStrip l) "# " = false := hno l (List.mem_cons_self l ls)
      have hls : ∀ x ∈ ls, pyStartsWith (pyStrip x) "# " = false :=
        fun x hx => hno x (List.mem_cons_of_mem l hx)
      simp only [parseLoop]
      by_cases h1 : pyStrip l = ""
      · rw [if_pos h1]; exact ih ls cs data hls
      rw [if_neg h1]
      by_cases h2 : isImageLine (pyStrip l) = true
      · rw [if_pos h2]; exact ih ls cs data hls
      rw [if_neg h2]
      rw [if_neg (show ¬(pyStartsWith (pyStrip l) "# " = true ∧ data.name = "") by simp [hl])]
      by_cases h4 : pyStartsWith (pyStrip l) "**" = true ∧ pyEndsWith (pyStrip l) "**" = true ∧
          data.role = ""
      · rw [if_pos h4]; exact ih ls cs _ hls
      rw [if_neg h4]
      by_cases h5 : pyStartsWith (pyStrip l) "## " = true
      · rw [if_pos h5]; exact ih ls _ data hls
      rw [if_neg h5]
      by_cases h6 : pyStartsWith (pyStrip l) "### " = true
      · rw [if_pos h6]
        have hrest : ∀ x ∈ (parseItem ls).2.2.2, pyStartsWith (pyStrip x) "# " = false :=
          fun x hx => hls x ((parseItem_suffix ls).subset hx)
        by_cases hc : (containsSubStr "project" cs || containsSubStr "highlight" cs) = true
        · rw [if_pos hc]; exact ih _ _ _ hrest
        · rw [if_neg hc]; exact ih _ _ _ hrest
      rw [if_neg h6]
      by_cases h7 : cs = "professional summary"
      · rw [if_pos h7]
        exact ih _ _ _ (fun x hx => hls x ((collectSummary_suffix ls).subset hx))
      rw [if_neg h7]
      by_cases h8 : cs = "core skills" ∧ pyStartsWith (pyStrip l) "- " = true
      · rw [if_pos h8]; exact ih ls cs _ hls
      rw [if_neg h8]
      by_cases h9 : containsSubStr "role alignment" cs = true ∧ pyStartsWith (pyStrip l) "- " = true
      · rw [if_pos h9]; exact ih ls cs _ hls
      rw [if_neg h9]
      by_cases h10 : cs = "" ∧ pyStrip l ≠ "" ∧ ¬ pyStartsWith (pyStrip l) "#" = true
      · rw [if_pos h10]
        by_cases hcon : pyStrip l ∈ data.contacts
        · rw [if_pos hcon]; exact ih ls cs data hls
        · rw [if_neg hcon]; exact ih ls cs _ hls
      rw [if_neg h10]
      exact ih ls cs data hls

/-- Once `name` is nonempty the loop never changes it. -/
theorem parseLoop_name_stable (fuel : Nat) : ∀ lines cs data,
    data.name ≠ "" →
    (parseLoop fuel lines cs data).name = data.name := by
  induction fuel with
  | zero => intro lines cs data _; rfl
  | succ f ih =>
    intro lines cs data hname
    cases lines with
    | nil => rfl
    | cons l ls =>
      simp only [parseLoop]
      by_cases h1 : pyStrip l = ""
      · rw [if_pos h1]; exact ih ls cs data hname
      rw [if_neg h1]
      by_cases h2 : isImageLine (pyStrip l) = true
      · rw [if_pos h2]; exact ih ls cs data hname
      rw [if_neg h2]
      rw [if_neg (show ¬(pyStartsWith (pyStrip l) "# " = true ∧ data.name = "") by
        rintro ⟨_, h⟩; exact hname h)]
      by_cases h4 : pyStartsWith (pyStrip l) "**" = true ∧ pyEndsWith (pyStrip l) "**" = true ∧
          data.role = ""
      · rw [if_pos h4]; exact ih ls cs _ hname
      rw [if_neg h4]
      by_cases h5 : pyStartsWith (pyStrip l) "## " = true
      · rw [if_pos h5]; exact ih ls _ data hname
      rw [if_neg h5]
      by_cases h6 : pyStartsWith (pyStrip l) "### " = true
      · rw [if_pos h6]
        by_cases hc : (containsSubStr "project" cs || containsSubStr "highlight" cs) = true
        · rw [if_pos hc]; exact ih _ _ _ hname
        · rw [if_neg hc]; exact ih _ _ _ hname
      rw [if_neg h6]
      by_cases h7 : cs = "professional summary"
      · rw [if_pos h7]; exact ih _ _ _ hname
      rw [if_neg h7]
      by_cases h8 : cs = "core skills" ∧ pyStartsWith (pyStrip l) "- " = true
      · rw [if_pos h8]; exact ih ls cs _ hname
      rw [if_neg h8]
      by_cases h9 : containsSubStr "role alignment" cs = true ∧ pyStartsWith (pyStrip l) "- " = true
      · rw [if_pos h9]; exact ih ls cs _ hname
      rw [if_neg h9]
      by_cases h10 : cs = "" ∧ pyStrip l ≠ "" ∧ ¬ pyStartsWith (pyStrip l) "#" = true
      · rw [if_pos h10]
        by_cases hcon : pyStrip l ∈ data.contacts
        · rw [if_pos hcon]; exact ih ls cs data hname
        · rw [if_neg hcon]; exact ih ls cs _ hname
      rw [if_neg h10]
      exact ih ls cs data hname

/-- If no line is fully wrapped in `**`, the loop never sets `role`. -/
theorem parseLoop_role_pres (fuel : Nat) : ∀ lines cs data,
    (∀ l ∈ lines, ¬(pyStartsWith (pyStrip l) "**" = true ∧ pyEndsWith (pyStrip l) "**" = true)) →
    (parseLoop fuel lines cs data).role = data.role := by
  induction fuel with
  | zero => intro lines cs data _; rfl
  | succ f ih =>
    intro lines cs data hno
    cases lines with
    | nil => rfl
    | cons l ls =>
      have hl := hno l (List.mem_cons_self l ls)
      have hls : ∀ x ∈ ls, ¬(pyStartsWith (pyStrip x) "**" = true ∧ pyEndsWith (pyStrip x) "**" = true) :=
        fun x hx => hno x (List.mem_cons_of_mem l hx)
      simp only [parseLoop]
      by_cases h1 : pyStrip l = ""
      · rw [if_pos h1]; exact ih ls cs data hls
      rw [if_neg h1]
      by_cases h2 : isImageLine (pyStrip l) = true
      · rw [if_pos h2]; exact ih ls cs data hls
      rw [if_neg h2]
      by_cases h3 : pyStartsWith (pyStrip l) "# " = true ∧ data.name = ""
      · rw [if_pos h3]; exact ih ls cs _ hls
      rw [if_neg h3]
      rw [if_neg (show ¬(pyStartsWith (pyStrip l) "**" = true ∧ pyEndsWith (pyStrip l) "**" = true ∧
          data.role = "") by rintro ⟨ha, hb, _⟩; exact hl ⟨ha, hb⟩)]
      by_cases h5 : pyStartsWith (pyStrip l) "## " = true
      · rw [if_pos h5]; exact ih ls _ data hls
      rw [if_neg h5]
      by_cases h6 : pyStartsWith (pyStrip l) "### " = true
      · rw [if_pos h6]
        have hrest : ∀ x ∈ (parseItem ls).2.2.2,
            ¬(pyStartsWith (pyStrip x) "**" = true ∧ pyEndsWith (pyStrip x) "**" = true) :=
          fun x hx => hls x ((parseItem_suffix ls).subset hx)
        by_cases hc : (containsSubStr "project" cs || containsSubStr "highlight" cs) = true
        · rw [if_pos hc]; exact ih _ _ _ hrest
        · rw [if_neg hc]; exact ih _ _ _ hrest
      rw [if_neg h6]
      by_cases h7 : cs = "professional summary"
      · rw [if_pos h7]
        exact ih _ _ _ (fun x hx => hls x ((collectSummary_suffix ls).subset hx))
      rw [if_neg h7]
      by_cases h8 : cs = "core skills" ∧ pyStartsWith (pyStrip l) "- " = true
      · rw [if_pos h8]; exact ih ls cs _ hls
      rw [if_neg h8]
      by_cases h9 : containsSubStr "role alignment" cs = true ∧ pyStartsWith (pyStrip l) "- " = true
      · rw [if_pos h9]; exact ih ls cs _ hls
      rw [if_neg h9]
      by_cases h10 : cs = "" ∧ pyStrip l ≠ "" ∧ ¬ pyStartsWith (pyStrip l) "#" = true
      · rw [if_pos h10]
        by_cases hcon : pyStrip l ∈ data.contacts
        · rw [if_pos hcon]; exact ih ls cs data hls
        · rw [if_neg hcon]; exact ih ls cs _ hls
      rw [if_neg h10]
      exact ih ls cs data hls

/-- If every line is blank or starts with `#`, the loop never appends a
contact. -/
theorem parseLoop_contacts_pres (fuel : Nat) : ∀ lines cs data,
    (∀ l ∈ lines, pyStrip l = "" ∨ pyStartsWith (pyStrip l) "#" = true) →
    (parseLoop fuel lines cs data).contacts = data.contacts := by
  induction fuel with
  | zero => intro lines cs data _; rfl
  | succ f ih =>
    intro lines cs data hno
    cases lines with
    | nil => rfl
    | cons l ls =>
      have hl := hno l (List.mem_cons_self l ls)
      have hls : ∀ x ∈ ls, pyStrip x = "" ∨ pyStartsWith (pyStrip x) "#" = true :=
        fun x hx => hno x (List.mem_cons_of_mem l hx)
      simp only [parseLoop]
      by_cases h1 : pyStrip l = ""
      · rw [if_pos h1]; exact ih ls cs data hls
      rw [if_neg h1]
      by_cases h2 : isImageLine (pyStrip l) = true
      · rw [if_pos h2]; exact ih ls cs data hls
      rw [if_neg h2]
      by_cases h3 : pyStartsWith (pyStrip l) "# " = true ∧ data.name = ""
      · rw [if_pos h3]; exact ih ls cs _ hls
      rw [if_neg h3]
      by_cases h4 : pyStartsWith (pyStrip l) "**" = true ∧ pyEndsWith (pyStrip l) "**" = true ∧
          data.role = ""
      · rw [if_pos h4]; exact ih ls cs _ hls
      rw [if_neg h4]
      by_cases h5 : pyStartsWith (pyStrip l) "## " = true
      · rw [if_pos h5]; exact ih ls _ data hls
      rw [if_neg h5]
      by_cases h6 : pyStartsWith (pyStrip l) "### " = true
      · rw [if_pos h6]
        have hrest : ∀ x ∈ (parseItem ls).2.2.2, pyStrip x = "" ∨ pyStartsWith (pyStrip x) "#" = true :=
          fun x hx => hls x ((parseItem_suffix ls).subset hx)
        by_cases hc : (containsSubStr "project" cs || containsSubStr "highlight" cs) = true
        · rw [if_pos hc]; exact ih _ _ _ hrest
        · rw [if_neg hc]; exact ih _ _ _ hrest
      rw [if_neg h6]
      by_cases h7 : cs = "professional summary"
      · rw [if_pos h7]
        exact ih _ _ _ (fun x hx => hls x ((collectSummary_suffix ls).subset hx))
      rw [if_neg h7]
      by_cases h8 : cs = "core skills" ∧ pyStartsWith (pyStrip l) "- " = true
      · rw [if_pos h8]; exact ih ls cs _ hls
      rw [if_neg h8]
      by_cases h9 : containsSubStr "role alignment" cs = true ∧ pyStartsWith (pyStrip l) "- " = true
      · rw [if_pos h9]; exact ih ls cs _ hls
      rw [if_neg h9]
      rw [if_neg (show ¬(cs = "" ∧ pyStrip l ≠ "" ∧ ¬ pyStartsWith (pyStrip l) "#" = true) by
        rintro ⟨_, hne, hns⟩
        rcases hl with h | h
        · exact hne h
        · exact hns h)]
      exact ih ls cs data hls

/-- With an empty current section and no `## ` heading in sight, the loop
never touches `summary`, `skills` or `fit`. -/
theorem parseLoop_secempty (fuel : Nat) : ∀ lines data,
    (∀ l ∈ lines, pyStartsWith (pyStrip l) "## " = false) →
    (parseLoop fuel lines "" data).summary = data.summary ∧
    (parseLoop fuel lines "" data).skills = data.skills ∧
    (parseLoop fuel lines "" data).fit = data.fit := by
  induction fuel with
  | zero => intro lines data _; exact ⟨rfl, rfl, rfl⟩
  | succ f ih =>
    intro lines data hno
    cases lines with
    | nil => exact ⟨rfl, rfl, rfl⟩
    | cons l ls =>
      have hl := hno l (List.mem_cons_self l ls)
      have hls : ∀ x ∈ ls, pyStartsWith (pyStrip x) "## " = false :=
        fun x hx => hno x (List.mem_cons_of_mem l hx)
      simp only [parseLoop]
      by_cases h1 : pyStrip l = ""
      · rw [if_pos h1]; exact ih ls data hls
      rw [if_neg h1]
      by_cases h2 : isImageLine (pyStrip l) = true
      · rw [if_pos h2]; exact ih ls data hls
      rw [if_neg h2]
      by_cases h3 : pyStartsWith (pyStrip l) "# " = true ∧ data.name = ""
      · rw [if_pos h3]; exact ih ls _ hls
      rw [if_neg h3]
      by_cases h4 : pyStartsWith (pyStrip l) "**" = true ∧ pyEndsWith (pyStrip l) "**" = true ∧
          data.role = ""
      · rw [if_pos h4]; exact ih ls _ hls
      rw [if_neg h4]
      rw [if_neg (show ¬ pyStartsWith (pyStrip l) "## " = true by simp [hl])]
      by_cases h6 : pyStartsWith (pyStrip l) "### " = true
      · rw [if_pos h6]
        have hrest : ∀ x ∈ (parseItem ls).2.2.2, pyStartsWith (pyStrip x) "## " = false :=
          fun x hx => hls x ((parseItem_suffix ls).subset hx)
        rw [if_neg (show ¬(containsSubStr "project" "" || containsSubStr "highlight" "") = true
          by decide)]
        exact ih _ _ hrest
      rw [if_neg h6]
      rw [if_neg (show ¬("" : String) = "professional summary" by decide)]
      rw [if_neg (show ¬(("" : String) = "core skills" ∧ pyStartsWith (pyStrip l) "- " = true) by
        rintro ⟨h, _⟩; exact absurd h (by decide))]
      rw [if_neg (show ¬(containsSubStr "role alignment" "" = true ∧
          pyStartsWith (pyStrip l) "- " = true) by rintro ⟨h, _⟩; exact absurd h (by decide))]
      simp only [true_and]
      by_cases h10 : pyStrip l ≠ "" ∧ ¬ pyStartsWith (pyStrip l) "#" = true
      · rw [if_pos h10]
        by_cases hcon : pyStrip l ∈ data.contacts
        · rw [if_pos hcon]; exact ih ls data hls
        · rw [if_neg hcon]; exact ih ls _ hls
      rw [if_neg h10]
      exact ih ls data hls

/-- If no line starts with `### `, the loop never appends an item. -/
theorem parseLoop_items_pres (fuel : Nat) : ∀ lines cs data,
    (∀ l ∈ lines, pyStartsWith (pyStrip l) "### " = false) →
    (parseLoop fuel lines cs data).experience = data.experience ∧
    (parseLoop fuel lines cs data).projects = data.projects := by
  induction fuel with
  | zero => intro lines cs data _; exact ⟨rfl, rfl⟩
  | succ f ih =>
    intro lines cs data hno
    cases lines with
    | nil => exact ⟨rfl, rfl⟩
    | cons l ls =>
      have hl := hno l (List.mem_cons_self l ls)
      have hls : ∀ x ∈ ls, pyStartsWith (pyStrip x) "### " = false :=
        fun x hx => hno x (List.mem_cons_of_mem l hx)
      simp only [parseLoop]
      by_cases h1 : pyStrip l = ""
      · rw [if_pos h1]; exact ih ls cs data hls
      rw [if_neg h1]
      by_cases h2 : isImageLine (pyStrip l) = true
      · rw [if_pos h2]; exact ih ls cs data hls
      rw [if_neg h2]
      by_cases h3 : pyStartsWith (pyStrip l) "# " = true ∧ data.name = ""
      · rw [if_pos h3]; exact ih ls cs _ hls
      rw [if_neg h3]
      by_cases h4 : pyStartsWith (pyStrip l) "**" = true ∧ pyEndsWith (pyStrip l) "**" = true ∧
          data.role = ""
      · rw [if_pos h4]; exact ih ls cs _ hls
      rw [if_neg h4]
      by_cases h5 : pyStartsWith (pyStrip l) "## " = true
      · rw [if_pos h5]; exact ih ls _ data hls
      rw [if_neg h5]
      rw [if_neg (show ¬ pyStartsWith (pyStrip l) "### " = true by simp [hl])]
      by_cases h7 : cs = "professional summary"
      · rw [if_pos h7]
        exact ih _ _ _ (fun x hx => hls x ((collectSummary_suffix ls).subset hx))
      rw [if_neg h7]
      by_cases h8 : cs = "core skills" ∧ pyStartsWith (pyStrip l) "- " = true
      · rw [if_pos h8]; exact ih ls cs _ hls
      rw [if_neg h8]
      by_cases h9 : containsSubStr "role alignment" cs = true ∧ pyStartsWith (pyStrip l) "- " = true
      · rw [if_pos h9]; exact ih ls cs _ hls
      rw [if_neg h9]
      by_cases h10 : cs = "" ∧ pyStrip l ≠ "" ∧ ¬ pyStartsWith (pyStrip l) "#" = true
      · rw [if_pos h10]
        by_cases hcon : pyStrip l ∈ data.contacts
        · rw [if_pos hcon]; exact ih ls cs data hls
        · rw [if_neg hcon]; exact ih ls cs _ hls
      rw [if_neg h10]
      exact ih ls cs data hls

/-- The item lists only ever grow, by appending at the end: items are never
dropped and document order is preserved. -/
theorem parseLoop_items_monotone (fuel : Nat) : ∀ lines cs data,
    ∃ es ps, (parseLoop fuel lines cs data).experience = data.experience ++ es ∧
      (parseLoop fuel lines cs data).projects = data.projects ++ ps := by
  induction fuel with
  | zero => intro lines cs data; exact ⟨[], [], by simp [parseLoop], by simp [parseLoop]⟩
  | succ f ih =>
    intro lines cs data
    cases lines with
    | nil => exact ⟨[], [], by simp [parseLoop], by simp [parseLoop]⟩
    | cons l ls =>
      simp only [parseLoop]
      by_cases h1 : pyStrip l = ""
      · rw [if_pos h1]; exact ih ls cs data
      rw [if_neg h1]
      by_cases h2 : isImageLine (pyStrip l) = true
      · rw [if_pos h2]; exact ih ls cs data
      rw [if_neg h2]
      by_cases h3 : pyStartsWith (pyStrip l) "# " = true ∧ data.name = ""
      · rw [if_pos h3]; exact ih ls cs _
      rw [if_neg h3]
      by_cases h4 : pyStartsWith (pyStrip l) "**" = true ∧ pyEndsWith (pyStrip l) "**" = true ∧
          data.role = ""
      · rw [if_pos h4]; exact ih ls cs _
      rw [if_neg h4]
      by_cases h5 : pyStartsWith (pyStrip l) "## " = true
      · rw [if_pos h5]; exact ih ls _ data
      rw [if_neg h5]
      by_cases h6 : pyStartsWith (pyStrip l) "### " = true
      · rw [if_pos h6]
        by_cases hc : (containsSubStr "project" cs || containsSubStr "highlight" cs) = true
        · rw [if_pos hc]
          rcases ih (parseItem ls).2.2.2 cs _ with ⟨es, ps, he, hp⟩
          refine ⟨es, ⟨pyStrip (pyDropStr 4 (pyStrip l)), (parseItem ls).1,
            (parseItem ls).2.1, (parseItem ls).2.2.1⟩ :: ps, ?_, ?_⟩
          · rw [he]
          · rw [hp]; simp
        · rw [if_neg hc]
          rcases ih (parseItem ls).2.2.2 cs _ with ⟨es, ps, he, hp⟩
          refine ⟨⟨pyStrip (pyDropStr 4 (pyStrip l)), (parseItem ls).1,
            (parseItem ls).2.1, (parseItem ls).2.2.1⟩ :: es, ps, ?_, ?_⟩
          · rw [he]; simp
          · rw [hp]
      rw [if_neg h6]
      by_cases h7 : cs = "professional summary"
      · rw [if_pos h7]; exact ih _ _ _
      rw [if_neg h7]
      by_cases h8 : cs = "core skills" ∧ pyStartsWith (pyStrip l) "- " = true
      · rw [if_pos h8]; exact ih ls cs _
      rw [if_neg h8]
      by_cases h9 : containsSubStr "role alignment" cs = true ∧ pyStartsWith (pyStrip l) "- " = true
      · rw [if_pos h9]; exact ih ls cs _
      rw [if_neg h9]
      by_cases h10 : cs = "" ∧ pyStrip l ≠ "" ∧ ¬ pyStartsWith (pyStrip l) "#" = true
      · rw [if_pos h10]
        by_cases hcon : pyStrip l ∈ data.contacts
        · rw [if_pos hcon]; exact ih ls cs data
        · rw [if_neg hcon]; exact ih ls cs _
      rw [if_neg h10]
      exact ih ls cs data

/-! ## Further helpers -/

/-- If `s` does not start with `q` and `q` is a prefix of `p`, then `s` does
not start with `p` either. -/
theorem startsWith_longer_false (s p q : String) (hq : pyStartsWith s q = false)
    (hpq : isPrefixB q.data p.data = true) : pyStartsWith s p = false := by
  by_contra hc
  rw [Bool.not_eq_false] at hc
  have : pyStartsWith s q = true := isPrefixB_trans hpq hc
  rw [this] at hq
  exact absurd hq (by decide)

/-- `scanImage` returns the extraction from the first image-looking line. -/
theorem scanImage_eq (lines : List String) :
    scanImage lines =
      match lines.find? (fun l => isImageLine (pyStrip l)) with
      | some l => extractImage (pyStrip l)
      | none => "" := by
  induction lines with
  | nil => rfl
  | cons l ls ih =>
    simp only [scanImage]
    by_cases h : isImageLine (pyStrip l) = true
    · rw [if_pos h]
      simp only [List.find?, h]
    · have h' : isImageLine (pyStrip l) = false := by
        rw [Bool.eq_false_iff]; exact h
      rw [if_neg h]
      simp only [List.find?, h']
      exact ih

/-- `parse_markdown` returns exactly the image target found by the pre-pass:
the main loop never modifies `image_from_md`. -/
theorem parse_markdown_image (md : String) :
    (parse_markdown md).image_from_md = scanImage (pySplitlines md) := by
  unfold parse_markdown parseLines
  rw [parseLoop_image]

/-- If the head of `dropWhile p` is `c`, then `p c` is false. -/
theorem head?_dropWhile {p : Char → Bool} {xs : List Char} {c : Char}
    (h : (xs.dropWhile p).head? = some c) : p c = false := by
  induction xs with
  | nil => simp [List.dropWhile] at h
  | cons x xs ih =>
    rw [List.dropWhile_cons] at h
    split_ifs at h with hx
    · exact ih h
    · simp only [List.head?_cons, Option.some.injEq] at h
      subst h
      rw [Bool.eq_false_iff]
      exact hx

/-- The last character of a right strip is never whitespace. -/
theorem getLast?_rstripData (m : List Char) (c : Char)
    (hc : (rstripData m).getLast? = some c) : isPySpace c = false := by
  unfold rstripData at hc
  rw [List.getLast?_reverse] at hc
  exact head?_dropWhile hc

/-- The last character of a full strip is never whitespace. -/
theorem getLast?_stripData (m : List Char) (c : Char)
    (hc : (stripData m).getLast? = some c) : isPySpace c = false :=
  getLast?_rstripData (lstripData m) c hc

/-- A non-whitespace member survives `dropWhile isPySpace`. -/
theorem mem_dropWhile_of_not {p : Char → Bool} {c : Char} {l : List Char}
    (hmem : c ∈ l) (hc : p c = false) : c ∈ l.dropWhile p := by
  induction l with
  | nil => cases hmem
  | cons x xs ih =>
    rw [List.dropWhile_cons]
    split_ifs with hx
    · rcases List.mem_cons.1 hmem with rfl | hm
      · rw [hc] at hx; cases hx
      · exact ih hm
    · exact hmem

/-- A list whose strip is empty consists of whitespace only. -/
theorem stripData_eq_nil_all_space {t : List Char} (h : stripData t = []) :
    ∀ c ∈ t, isPySpace c = true := by
  intro c hc
  by_contra hcf
  rw [Bool.not_eq_true] at hcf
  have h1 : c ∈ lstripData t := mem_dropWhile_of_not hc hcf
  unfold stripData rstripData at h
  have h2 : (lstripData t).reverse.dropWhile isPySpace = [] := by
    have := congrArg List.reverse h
    simpa using this
  have h3 := List.dropWhile_eq_nil_iff.1 h2
  have := h3 c (by simpa using h1)
  rw [this] at hcf
  exact absurd hcf (by decide)

/-- The remainder after `# ` of a stripped heading line never strips to the
empty string (the stripped line cannot end in whitespace). -/
theorem strip_hash_remainder_ne (l : String)
    (h : pyStartsWith (pyStrip l) "# " = true) :
    pyStrip (pyDropStr 2 (pyStrip l)) ≠ "" := by
  rcases (pyStartsWith_iff _ "# ").1 h with ⟨t, ht⟩
  have ht' : (pyStrip l).data = '#' :: ' ' :: t := by
    rw [ht]; rfl
  intro hemp
  have hemp' : stripData t = [] := by
    have h0 : (pyStrip (pyDropStr 2 (pyStrip l))).data = [] := by rw [hemp]
    have h1 : (pyStrip (pyDropStr 2 (pyStrip l))).data =
        stripData (((pyStrip l).data).drop 2) := rfl
    rw [h1, ht'] at h0
    exact h0
  have hall := stripData_eq_nil_all_space hemp'
  have hsd : (pyStrip l).data = stripData l.data := rfl
  cases t with
  | nil =>
    have hlast : (stripData l.data).getLast? = some ' ' := by
      rw [← hsd, ht']
      rfl
    have := getLast?_stripData l.data ' ' hlast
    exact absurd this (by decide)
  | cons c0 t' =>
    have hne : (c0 :: t' : List Char) ≠ [] := by simp
    have hlastmem : (c0 :: t').getLast hne ∈ (c0 :: t') := List.getLast_mem hne
    have hlast : (stripData l.data).getLast? = some ((c0 :: t').getLast hne) := by
      rw [← hsd, ht', List.getLast?_cons_cons, List.getLast?_cons_cons]
      exact List.getLast?_eq_getLast _ hne
    have hns := getLast?_stripData l.data _ hlast
    have := hall _ hlastmem
    rw [this] at hns
    exact absurd hns (by decide)

/-- A line that is not a heading of any of the three levels. -/
def PreSection (x : String) : Prop :=
  pyStartsWith (pyStrip x) "# " = false ∧ pyStartsWith (pyStrip x) "## " = false ∧
  pyStartsWith (pyStrip x) "### " = false

/-- A `# ` heading line cannot be an image line. -/
theorem isImageLine_false_of_hash (l : String)
    (hl : pyStartsWith (pyStrip l) "# " = true) : isImageLine (pyStrip l) = false := by
  have hb : pyStartsWith (pyStrip l) "![" = false :=
    not_startsWith_of_startsWith _ "# " "![" hl (by decide) (by decide)
  unfold isImageLine
  rw [hb]
  rfl

/-- When the lines before the first `# ` heading contain no heading of any
level, the loop (run with empty current section) sets `name` from that first
`# ` heading and keeps it. -/
theorem parseLoop_name_first : ∀ pre : List String, ∀ fuel (l : String) rest data,
    (∀ x ∈ pre, PreSection x) →
    pyStartsWith (pyStrip l) "# " = true →
    data.name = "" →
    (pre ++ l :: rest).length ≤ fuel →
    (parseLoop fuel (pre ++ l :: rest) "" data).name = pyStrip (pyDropStr 2 (pyStrip l)) := by
  intro pre
  induction pre with
  | nil =>
    intro fuel l rest data _ hl hname hfuel
    cases fuel with
    | zero => exact absurd hfuel (by simp)
    | succ f =>
      simp only [List.nil_append, parseLoop]
      have hne : pyStrip l ≠ "" :=
        ne_empty_of_startsWith (pyStrip l) "# " hl (by decide)
      rw [if_neg hne]
      rw [if_neg (show ¬ isImageLine (pyStrip l) = true by
        simp [isImageLine_false_of_hash l hl])]
      rw [if_pos ⟨hl, hname⟩]
      rw [parseLoop_name_stable f rest "" _ (strip_hash_remainder_ne l hl)]
  | cons p pre ih =>
    intro fuel l rest data hpre hl hname hfuel
    cases fuel with
    | zero => exact absurd hfuel (by simp)
    | succ f =>
      have hp := hpre p (List.mem_cons_self p pre)
      have hpre' : ∀ x ∈ pre, PreSection x := fun x hx => hpre x (List.mem_cons_of_mem p hx)
      have hfuel' : (pre ++ l :: rest).length ≤ f := by
        simp only [List.length_append, List.length_cons] at hfuel ⊢
        omega
      simp only [List.cons_append, parseLoop]
      by_cases h1 : pyStrip p = ""
      · rw [if_pos h1]; exact ih f l rest data hpre' hl hname hfuel'
      rw [if_neg h1]
      by_cases h2 : isImageLine (pyStrip p) = true
      · rw [if_pos h2]; exact ih f l rest data hpre' hl hname hfuel'
      rw [if_neg h2]
      rw [if_neg (show ¬(pyStartsWith (pyStrip p) "# " = true ∧ data.name = "") by
        rintro ⟨hh, _⟩; rw [hp.1] at hh; cases hh)]
      by_cases h4 : pyStartsWith (pyStrip p) "**" = true ∧ pyEndsWith (pyStrip p) "**" = true ∧
          data.role = ""
      · rw [if_pos h4]; exact ih f l rest _ hpre' hl hname hfuel'
      rw [if_neg h4]
      rw [if_neg (show ¬ pyStartsWith (pyStrip p) "## " = true by simp [hp.2.1])]
      rw [if_neg (show ¬ pyStartsWith (pyStrip p) "### " = true by simp [hp.2.2])]
      rw [if_neg (show ¬("" : String) = "professional summary" by decide)]
      rw [if_neg (show ¬(("" : String) = "core skills" ∧ pyStartsWith (pyStrip p) "- " = true) by
        rintro ⟨h, _⟩; exact absurd h (by decide))]
      rw [if_neg (show ¬(containsSubStr "role alignment" "" = true ∧
          pyStartsWith (pyStrip p) "- " = true) by rintro ⟨h, _⟩; exact absurd h (by decide))]
      simp only [true_and]
      by_cases h10 : pyStrip p ≠ "" ∧ ¬ pyStartsWith (pyStrip p) "#" = true
      · rw [if_pos h10]
        by_cases hcon : pyStrip p ∈ data.contacts
        · rw [if_pos hcon]; exact ih f l rest data hpre' hl hname hfuel'
        · rw [if_neg hcon]; exact ih f l rest _ hpre' hl hname hfuel'
      rw [if_neg h10]
      exact ih f l rest data hpre' hl hname hfuel'

/-! ## Contacts characterization -/

/-- A plain content line: non-blank, not `#`-initial, not an image line, not
bold-only.  Before any section heading such a line becomes a contact; inside
the professional-summary section it joins the summary run. -/
def PlainLine (l : String) : Prop :=
  pyStrip l ≠ "" ∧ pyStartsWith (pyStrip l) "#" = false ∧
  isImageLine (pyStrip l) = false ∧
  ¬(pyStartsWith (pyStrip l) "**" = true ∧ pyEndsWith (pyStrip l) "**" = true)

/-- One step of the contact collection (lines 117-118): a stripped line is
appended with all trailing backslashes removed, unless its (unstripped-of-
backslashes) text already occurs among the entries collected so far. -/
def contactsStep (acc : List String) (s : String) : List String :=
  if s ∈ acc then acc else acc ++ [rstripBackslash s]

/-- Over contact-shaped lines, the loop computes exactly the left fold of
`contactsStep` over the stripped lines. -/
theorem parseLoop_contacts_fold (fuel : Nat) : ∀ lines data,
    (∀ l ∈ lines, PlainLine l) →
    lines.length ≤ fuel →
    (parseLoop fuel lines "" data).contacts =
      (lines.map pyStrip).foldl contactsStep data.contacts := by
  induction fuel with
  | zero =>
    intro lines data _ hlen
    cases lines with
    | nil => simp [parseLoop]
    | cons l ls => exact absurd hlen (by simp)
  | succ f ih =>
    intro lines data hsh hlen
    cases lines with
    | nil => simp [parseLoop]
    | cons l ls =>
      have hl := hsh l (List.mem_cons_self l ls)
      have hls : ∀ x ∈ ls, PlainLine x := fun x hx => hsh x (List.mem_cons_of_mem l hx)
      have hlen' : ls.length ≤ f := by
        simp only [List.length_cons] at hlen
        omega
      simp only [parseLoop]
      rw [if_neg hl.1]
      rw [if_neg (show ¬ isImageLine (pyStrip l) = true by simp [hl.2.2.1])]
      rw [if_neg (show ¬(pyStartsWith (pyStrip l) "# " = true ∧ data.name = "") by
        rintro ⟨hh, _⟩
        rw [startsWith_longer_false _ "# " "#" hl.2.1 (by decide)] at hh
        cases hh)]
      rw [if_neg (show ¬(pyStartsWith (pyStrip l) "**" = true ∧ pyEndsWith (pyStrip l) "**" = true ∧
          data.role = "") by rintro ⟨ha, hb, _⟩; exact hl.2.2.2 ⟨ha, hb⟩)]
      rw [if_neg (show ¬ pyStartsWith (pyStrip l) "## " = true by
        simp [startsWith_longer_false _ "## " "#" hl.2.1 (by decide)])]
      rw [if_neg (show ¬ pyStartsWith (pyStrip l) "### " = true by
        simp [startsWith_longer_false _ "### " "#" hl.2.1 (by decide)])]
      rw [if_neg (show ¬("" : String) = "professional summary" by decide)]
      rw [if_neg (show ¬(("" : String) = "core skills" ∧ pyStartsWith (pyStrip l) "- " = true) by
        rintro ⟨h, _⟩; exact absurd h (by decide))]
      rw [if_neg (show ¬(containsSubStr "role alignment" "" = true ∧
          pyStartsWith (pyStrip l) "- " = true) by rintro ⟨h, _⟩; exact absurd h (by decide))]
      simp only [true_and]
      rw [if_pos (show pyStrip l ≠ "" ∧ ¬ pyStartsWith (pyStrip l) "#" = true by
        exact ⟨hl.1, by simp [hl.2.1]⟩)]
      rw [List.map_cons, List.foldl_cons]
      by_cases hmem : pyStrip l ∈ data.contacts
      · rw [if_pos hmem]
        rw [ih ls data hls hlen']
        unfold contactsStep
        rw [if_pos hmem]
      · rw [if_neg hmem]
        rw [ih ls _ hls hlen']
        unfold contactsStep
        rw [if_neg hmem]

/-! ## Summary characterization -/

theorem parseLoop_nil (fuel : Nat) (cs : String) (data : ResumeRecord) :
    parseLoop fuel [] cs data = data := by
  cases fuel <;> rfl

/-- The summary run collection consumes plain lines up to a blank line and
stops there. -/
theorem collectSummary_stops (r tail : List String)
    (hr : ∀ x ∈ r, PlainLine x) :
    collectSummary (r ++ "" :: tail) = (r.map pyStrip, "" :: tail) := by
  induction r with
  | nil =>
    simp only [List.nil_append, collectSummary]
    rw [if_pos (show (decide (pyStrip "" = "") || pyStartsWith (pyStrip "") "## ") = true
      by decide)]
    rfl
  | cons x r ih =>
    have hx := hr x (List.mem_cons_self x r)
    rw [List.cons_append]
    simp only [collectSummary]
    rw [if_neg (show ¬((decide (pyStrip x = "") || pyStartsWith (pyStrip x) "## ") = true) by
      simp [hx.1, startsWith_longer_false _ "## " "#" hx.2.1 (by decide)])]
    rw [ih (fun z hz => hr z (List.mem_cons_of_mem x hz))]
    simp

/-- The summary run collection consumes a fully plain list entirely. -/
theorem collectSummary_all (r : List String) (hr : ∀ x ∈ r, PlainLine x) :
    collectSummary r = (r.map pyStrip, []) := by
  induction r with
  | nil => rfl
  | cons x r ih =>
    have hx := hr x (List.mem_cons_self x r)
    simp only [collectSummary]
    rw [if_neg (show ¬((decide (pyStrip x = "") || pyStartsWith (pyStrip x) "## ") = true) by
      simp [hx.1, startsWith_longer_false _ "## " "#" hx.2.1 (by decide)])]
    rw [ih (fun z hz => hr z (List.mem_cons_of_mem x hz))]
    simp

/-- A plain line inside the professional-summary section reaches the summary
branch: two blank-separated runs leave the summary of the LAST run. -/
theorem parseLoop_summary_two_runs : ∀ fuel (r1 r2 : List String) data,
    r1 ≠ [] → r2 ≠ [] →
    (∀ x ∈ r1, PlainLine x) → (∀ x ∈ r2, PlainLine x) →
    (r1 ++ "" :: r2).length ≤ fuel →
    (parseLoop fuel (r1 ++ "" :: r2) "professional summary" data).summary =
      pyStrip (joinSpace (r2.map pyStrip)) := by
  intro fuel r1 r2 data h1 h2 hp1 hp2 hlen
  rcases List.exists_cons_of_ne_nil h1 with ⟨a, r1', rfl⟩
  rcases List.exists_cons_of_ne_nil h2 with ⟨b, r2', rfl⟩
  have ha := hp1 a (List.mem_cons_self a r1')
  have hb := hp2 b (List.mem_cons_self b r2')
  cases fuel with
  | zero => exact absurd hlen (by simp)
  | succ f =>
    rw [List.cons_append]
    simp only [parseLoop]
    rw [if_neg ha.1]
    rw [if_neg (show ¬ isImageLine (pyStrip a) = true by simp [ha.2.2.1])]
    rw [if_neg (show ¬(pyStartsWith (pyStrip a) "# " = true ∧ data.name = "") by
      rintro ⟨hh, _⟩
      rw [startsWith_longer_false _ "# " "#" ha.2.1 (by decide)] at hh
      cases hh)]
    rw [if_neg (show ¬(pyStartsWith (pyStrip a) "**" = true ∧ pyEndsWith (pyStrip a) "**" = true ∧
        data.role = "") by rintro ⟨hx, hy, _⟩; exact ha.2.2.2 ⟨hx, hy⟩)]
    rw [if_neg (show ¬ pyStartsWith (pyStrip a) "## " = true by
      simp [startsWith_longer_false _ "## " "#" ha.2.1 (by decide)])]
    rw [if_neg (show ¬ pyStartsWith (pyStrip a) "### " = true by
      simp [startsWith_longer_false _ "### " "#" ha.2.1 (by decide)])]
    rw [if_pos trivial]
    rw [collectSummary_stops r1' (b :: r2') (fun z hz => hp1 z (List.mem_cons_of_mem a hz))]
    have hlen1 : ("" :: b :: r2' : List String).length ≤ f := by
      simp only [List.cons_append, List.length_cons, List.length_append] at hlen ⊢
      omega
    cases f with
    | zero => exact absurd hlen1 (by simp)
    | succ f' =>
      simp only [parseLoop]
      rw [if_pos (show pyStrip "" = "" from rfl)]
      have hlen2 : (b :: r2' : List String).length ≤ f' := by
        simp only [List.length_cons] at hlen1 ⊢
        omega
      cases f' with
      | zero => exact absurd hlen2 (by simp)
      | succ f'' =>
        simp only [parseLoop]
        rw [if_neg hb.1]
        rw [if_neg (show ¬ isImageLine (pyStrip b) = true by simp [hb.2.2.1])]
        rw [if_neg (show ¬(pyStartsWith (pyStrip b) "# " = true ∧
            ({data with summary := pyStrip (joinSpace (pyStrip a :: r1'.map pyStrip))} :
              ResumeRecord).name = "") by
          rintro ⟨hh, _⟩
          rw [startsWith_longer_false _ "# " "#" hb.2.1 (by decide)] at hh
          cases hh)]
        rw [if_neg (show ¬(pyStartsWith (pyStrip b) "**" = true ∧
            pyEndsWith (pyStrip b) "**" = true ∧
            ({data with summary := pyStrip (joinSpace (pyStrip a :: r1'.map pyStrip))} :
              ResumeRecord).role = "") by
          rintro ⟨hx, hy, _⟩; exact hb.2.2.2 ⟨hx, hy⟩)]
        rw [if_neg (show ¬ pyStartsWith (pyStrip b) "## " = true by
          simp [startsWith_longer_false _ "## " "#" hb.2.1 (by decide)])]
        rw [if_neg (show ¬ pyStartsWith (pyStrip b) "### " = true by
          simp [startsWith_longer_false _ "### " "#" hb.2.1 (by decide)])]
        rw [if_pos trivial]
        rw [collectSummary_all r2' (fun z hz => hp2 z (List.mem_cons_of_mem b hz))]
        rw [parseLoop_nil]
        simp

/-! ## Item-field characterization -/

/-- Declarative description of the bullet collection: strip all lines, keep
them up to the first `## ` or `### ` heading, and of those take exactly the
`- ` lines (stripped remainders).  Blank lines and other non-bullet lines are
skipped, and `# ` headings do NOT stop the collection. -/
def bulletsSpec (ls : List String) : List String :=
  ((ls.map pyStrip).takeWhile
      (fun s => !(pyStartsWith s "## " || pyStartsWith s "### "))).filterMap
    (fun s => if pyStartsWith s "- " then some (pyStrip (pyDropStr 2 s)) else none)

/-- The one-pass bullet loop computes the declarative pipeline. -/
theorem collectBullets_eq_spec (ls : List String) :
    (collectBullets ls).1 = bulletsSpec ls := by
  induction ls with
  | nil => rfl
  | cons l ls ih =>
    simp only [collectBullets, bulletsSpec, List.map_cons, List.takeWhile_cons]
    by_cases h2 : (pyStartsWith (pyStrip l) "## " || pyStartsWith (pyStrip l) "### ") = true
    · rw [if_neg (show ¬ pyStrip l = "" by
        intro h0
        rw [h0] at h2
        exact absurd h2 (by decide))]
      rw [if_pos h2, h2]
      rfl
    · have h2' : (pyStartsWith (pyStrip l) "## " || pyStartsWith (pyStrip l) "### ") = false := by
        rw [Bool.eq_false_iff]; exact h2
      rw [h2']
      simp only [Bool.not_false, if_true]
      rw [List.filterMap_cons]
      by_cases h1 : pyStrip l = ""
      · rw [if_pos h1]
        rw [show (if pyStartsWith (pyStrip l) "- " = true
            then some (pyStrip (pyDropStr 2 (pyStrip l))) else none) = none by
          rw [if_neg (by rw [h1]; decide)]]
        rw [ih]
        rfl
      · rw [if_neg h1, if_neg (show ¬(false = true) by decide)]
        by_cases h3 : pyStartsWith (pyStrip l) "- " = true
        · rw [if_pos h3, if_pos h3]
          simp only [bulletsSpec] at ih
          simp [ih]
        · rw [if_neg h3, if_neg h3]
          rw [ih]
          rfl

/-- The blank-skipping cursor agrees with `find?` over non-blank lines. -/
theorem dropBlanks_head (ls : List String) :
    (dropBlanks ls).head? = ls.find? (fun l => !(pyStrip l = "")) := by
  induction ls with
  | nil => rfl
  | cons l ls ih =>
    simp only [dropBlanks, List.find?]
    by_cases h : pyStrip l = ""
    · rw [if_pos h, ih]
      rw [show (!(decide (pyStrip l = ""))) = false by simp [h]]
    · rw [if_neg h]
      rw [show (!(decide (pyStrip l = ""))) = true by simp [h]]
      rfl

instance instDecidablePlainLine (l : String) : Decidable (PlainLine l) := by
  unfold PlainLine; infer_instance

instance instDecidablePreSection (l : String) : Decidable (PreSection l) := by
  unfold PreSection; infer_instance

/-! ## Claims -/

/-- C1: `parse_markdown` is total (it is a Lean function, so it terminates
without raising for every input) and returns a complete record whose nine
fields all default to the empty string or empty list when the corresponding
structure is absent from the input: no `# ` line means empty `name`, no
bold-only line means empty `role`, no pre-section content line means no
`contacts`, no `## ` heading means empty `summary`/`skills`/`fit`, no `### `
heading means empty `experience`/`projects`, no image-shaped line means empty
`image_from_md`; on the empty input the whole record is empty. -/
theorem C1_parse_defaults (md : String) :
    ((∀ l ∈ pySplitlines md, pyStartsWith (pyStrip l) "# " = false) →
      (parse_markdown md).name = "") ∧
    ((∀ l ∈ pySplitlines md,
        ¬(pyStartsWith (pyStrip l) "**" = true ∧ pyEndsWith (pyStrip l) "**" = true)) →
      (parse_markdown md).role = "") ∧
    ((∀ l ∈ pySplitlines md, pyStrip l = "" ∨ pyStartsWith (pyStrip l) "#" = true) →
      (parse_markdown md).contacts = []) ∧
    ((∀ l ∈ pySplitlines md, pyStartsWith (pyStrip l) "## " = false) →
      (parse_markdown md).summary = "" ∧ (parse_markdown md).skills = [] ∧
        (parse_markdown md).fit = []) ∧
    ((∀ l ∈ pySplitlines md, pyStartsWith (pyStrip l) "### " = false) →
      (parse_markdown md).experience = [] ∧ (parse_markdown md).projects = []) ∧
    ((∀ l ∈ pySplitlines md, isImageLine (pyStrip l) = false) →
      (parse_markdown md).image_from_md = "") ∧
    parse_markdown "" = emptyRecord := by
  refine ⟨?_, ?_, ?_, ?_, ?_, ?_, by decide⟩
  · intro h
    exact parseLoop_name_pres _ _ _ _ h
  · intro h
    exact parseLoop_role_pres _ _ _ _ h
  · intro h
    exact parseLoop_contacts_pres _ _ _ _ h
  · intro h
    exact parseLoop_secempty _ _ _ h
  · intro h
    exact parseLoop_items_pres _ _ _ _ h
  · intro h
    rw [parse_markdown_image, scanImage_eq]
    rw [List.find?_eq_none.2 (fun x hx => by simp [h x hx])]

/-- Witness for C1 at the empty input: every hypothesis holds vacuously. -/
theorem C1_parse_defaults_witness :
    (parse_markdown "").name = "" ∧ (parse_markdown "").role = "" ∧
    (parse_markdown "").contacts = [] ∧ (parse_markdown "").summary = "" ∧
    (parse_markdown "").experience = [] ∧ (parse_markdown "").image_from_md = "" :=
  ⟨(C1_parse_defaults "").1 (by decide),
   (C1_parse_defaults "").2.1 (by decide),
   (C1_parse_defaults "").2.2.1 (by decide),
   ((C1_parse_defaults "").2.2.2.1 (by decide)).1,
   ((C1_parse_defaults "").2.2.2.2.1 (by decide)).1,
   (C1_parse_defaults "").2.2.2.2.2.1 (by decide)⟩

/-- C3 counterexample: with two runs "A" and "B" in the professional-summary
section, the parser keeps the LAST run, not the first: the claim that the
first contiguous run is retained is false. -/
theorem C3_first_run_counterexample :
    (parse_markdown "## Professional Summary\nA\n\nB").summary = "B" ∧
    (parse_markdown "## Professional Summary\nA\n\nB").summary ≠ "A" := by
  constructor
  · decide
  · decide

/-- C3 amended: for a professional-summary section containing two contiguous
runs of plain lines separated by a blank line, the summary equals the
space-join of the trimmed lines of the LAST run — each later run overwrites
the earlier value. -/
theorem C3_summary_last_run (r1 r2 : List String)
    (h1 : r1 ≠ []) (h2 : r2 ≠ [])
    (hp1 : ∀ x ∈ r1, PlainLine x) (hp2 : ∀ x ∈ r2, PlainLine x) :
    (parseLines ("## Professional Summary" :: (r1 ++ "" :: r2))).summary =
      pyStrip (joinSpace (r2.map pyStrip)) := by
  unfold parseLines
  rw [show ("## Professional Summary" :: (r1 ++ "" :: r2)).length
      = (r1 ++ "" :: r2).length + 1 from rfl]
  simp only [parseLoop]
  rw [if_neg (show ¬ pyStrip "## Professional Summary" = "" by decide)]
  rw [if_neg (show ¬ isImageLine (pyStrip "## Professional Summary") = true by decide)]
  rw [if_neg (show ¬(pyStartsWith (pyStrip "## Professional Summary") "# " = true ∧
      ({ emptyRecord with
          image_from_md := scanImage ("## Professional Summary" :: (r1 ++ "" :: r2)) } :
        ResumeRecord).name = "") by rintro ⟨h, _⟩; exact absurd h (by decide))]
  rw [if_neg (show ¬(pyStartsWith (pyStrip "## Professional Summary") "**" = true ∧
      pyEndsWith (pyStrip "## Professional Summary") "**" = true ∧
      ({ emptyRecord with
          image_from_md := scanImage ("## Professional Summary" :: (r1 ++ "" :: r2)) } :
        ResumeRecord).role = "") by rintro ⟨h, _⟩; exact absurd h (by decide))]
  rw [if_pos (show pyStartsWith (pyStrip "## Professional Summary") "## " = true by decide)]
  rw [show pyLower (pyStrip (pyDropStr 3 (pyStrip "## Professional Summary")))
      = "professional summary" by decide]
  exact parseLoop_summary_two_runs _ r1 r2 _ h1 h2 hp1 hp2 (le_refl _)

/-- Witness for C3 at the counterexample shape: runs ["A"] and ["B"]. -/
theorem C3_summary_last_run_witness :
    (parseLines ["## Professional Summary", "A", "", "B"]).summary =
      pyStrip (joinSpace (["B"].map pyStrip)) :=
  C3_summary_last_run ["A"] ["B"] (by decide) (by decide) (by decide) (by decide)

/-- C5 counterexample: with input lines `a` and `a\`, the dedup test compares
the raw stripped line against the already backslash-stripped stored entries,
so the string "a" ends up twice in `contacts` — the claim that no string
occurs twice is false. -/
theorem C5_contacts_counterexample :
    (parse_markdown "a\na\\").contacts = ["a", "a"] ∧
    ¬ (parse_markdown "a\na\\").contacts.Nodup := by
  constructor
  · decide
  · decide

/-- C5 amended: the contacts are collected from the pre-section lines in
order by the fold that appends the stripped line with ALL trailing
backslashes removed unless the stripped-but-backslash-intact text already
occurs among the stored entries; duplicates are therefore possible. -/
theorem C5_contacts_fold (md : String)
    (h : ∀ l ∈ pySplitlines md, PlainLine l) :
    (parse_markdown md).contacts =
      ((pySplitlines md).map pyStrip).foldl contactsStep [] := by
  unfold parse_markdown parseLines
  exact parseLoop_contacts_fold _ _ _ h (le_refl _)

/-- Witness for C5 on two ordinary contact lines. -/
theorem C5_contacts_fold_witness :
    (parse_markdown "alice@example.com\ngithub.com/alice").contacts =
      ((pySplitlines "alice@example.com\ngithub.com/alice").map pyStrip).foldl
        contactsStep [] :=
  C5_contacts_fold "alice@example.com\ngithub.com/alice" (by decide)

/-- C6 counterexample: for the image line `![a(b](u)` the code slices from
the first `(` of the line — which here is inside the alt text — so
`image_from_md` is "b](u", not the URI target "u". -/
theorem C6_image_counterexample :
    (parse_markdown "![a(b](u)").image_from_md = "b](u" ∧
    (parse_markdown "![a(b](u)").image_from_md ≠ "u" := by
  constructor
  · decide
  · decide

/-- C6 amended: `image_from_md` is computed from the first line (in document
order) whose stripped text starts with `![`, contains `](` and ends with `)`:
it is the text strictly between the FIRST `(` of that line and its final
character (the URI target exactly when the alt text contains no `(`), and the
empty string when no such line exists. -/
theorem C6_image_first_match (md : String) :
    (parse_markdown md).image_from_md =
      match (pySplitlines md).find? (fun l => isImageLine (pyStrip l)) with
      | some l => extractImage (pyStrip l)
      | none => "" := by
  rw [parse_markdown_image, scanImage_eq]

/-- C9 counterexample: in `### T` followed by `# Jane`, the `# Jane` line is
consumed as the item's subtitle, so `name` stays empty even though a
first-level heading line exists. -/
theorem C9_name_counterexample :
    (parse_markdown "### T\n# Jane").name = "" ∧
    (parse_markdown "### T\n# Jane").name ≠ "Jane" ∧
    (parse_markdown "### T\n# Jane").experience =
      [⟨"T", "", "# Jane", []⟩] := by
  refine ⟨by decide, by decide, by decide⟩

/-- C9 amended: `name` is empty when no `# ` line exists, and it equals the
trimmed remainder of the first `# ` line provided no `## ` or `### ` heading
precedes that line (such a heading can swallow the `# ` line into a summary
run or an item, leaving `name` empty). -/
theorem C9_name_first_heading :
    (∀ md : String, (∀ l ∈ pySplitlines md, pyStartsWith (pyStrip l) "# " = false) →
      (parse_markdown md).name = "") ∧
    (∀ (pre : List String) (l : String) (rest : List String),
      (∀ x ∈ pre, PreSection x) →
      pyStartsWith (pyStrip l) "# " = true →
      (parseLines (pre ++ l :: rest)).name = pyStrip (pyDropStr 2 (pyStrip l))) := by
  constructor
  · intro md h
    exact parseLoop_name_pres _ _ _ _ h
  · intro pre l rest hpre hl
    unfold parseLines
    exact parseLoop_name_first pre _ l rest _ hpre hl rfl (le_refl _)

/-- Witness for C9: the spec's own example `# Jane Doe` yields "Jane Doe". -/
theorem C9_name_first_heading_witness :
    (parse_markdown "").name = "" ∧
    (parseLines ["# Jane Doe"]).name = pyStrip (pyDropStr 2 (pyStrip "# Jane Doe")) ∧
    pyStrip (pyDropStr 2 (pyStrip "# Jane Doe")) = "Jane Doe" :=
  ⟨C9_name_first_heading.1 "" (by decide),
   C9_name_first_heading.2 [] "# Jane Doe" [] (by decide) (by decide),
   by decide⟩

/-- A line that does not start with `![` is not an image line. -/
theorem isImageLine_false_of_not_bang (s : String)
    (h : pyStartsWith s "![" = false) : isImageLine s = false := by
  unfold isImageLine
  rw [h]
  rfl

/-- C4 counterexample: the meta line `**M` is taken although it is not
bold-only (no closing `**`), the `# S` heading becomes the subtitle, and the
bullet collection runs straight past the `# H` heading — refuting the claimed
bold-only / not-any-heading / stop-at-any-heading conditions. -/
theorem C4_item_counterexample :
    (parse_markdown "### T\n**M\n# S\n- b1\n# H\n- b2").experience =
      [⟨"T", "M", "# S", ["b1", "b2"]⟩] ∧
    pyEndsWith (pyStrip "**M") "**" = false := by
  refine ⟨by decide, by decide⟩

/-- C4 amended: after a `### ` heading, `meta` is taken iff the next
non-blank line merely STARTS with `**` (all `**` pairs removed, result
stripped); `subtitle` is taken iff the following line is non-blank, does not
start with `-` and does not start with `## ` (a `# ` or `### ` heading can
become the subtitle); and the bullets are exactly the `- ` lines of the
remaining lines up to the first `## ` or `### ` heading, skipping blanks and
other lines (a `# ` heading does not stop the collection). -/
theorem C4_item_fields (ls : List String) :
    ((parseItem ls).1 =
      match ls.find? (fun l => !(pyStrip l = "")) with
      | some l =>
        if pyStartsWith (pyStrip l) "**" = true
        then pyStrip (removeSS (pyStrip l)) else ""
      | none => "") ∧
    (∀ m rest, itemMeta (dropBlanks ls) = (m, rest) →
      (parseItem ls).2.1 =
        match rest with
        | [] => ""
        | l :: _ =>
          if pyStrip l ≠ "" ∧ ¬ pyStartsWith (pyStrip l) "-" = true ∧
              ¬ pyStartsWith (pyStrip l) "## " = true
          then pyStrip l else "") ∧
    (parseItem ls).2.2.1 = bulletsSpec ((itemSubtitle (itemMeta (dropBlanks ls)).2).2) := by
  refine ⟨?_, ?_, ?_⟩
  · rw [← dropBlanks_head ls]
    show (itemMeta (dropBlanks ls)).1 = _
    cases hd : dropBlanks ls with
    | nil => rfl
    | cons l rest =>
      simp only [itemMeta, List.head?_cons]
      by_cases h : pyStartsWith (pyStrip l) "**" = true
      · rw [if_pos h, if_pos h]
      · rw [if_neg h, if_neg h]
  · intro m rest hmr
    show (itemSubtitle (itemMeta (dropBlanks ls)).2).1 = _
    rw [hmr]
    cases rest with
    | nil => rfl
    | cons l rest' =>
      simp only [itemSubtitle]
      by_cases h : pyStrip l ≠ "" ∧ ¬ pyStartsWith (pyStrip l) "-" = true ∧
          ¬ pyStartsWith (pyStrip l) "## " = true
      · rw [if_pos h, if_pos h]
      · rw [if_neg h, if_neg h]
  · show (collectBullets (itemSubtitle (itemMeta (dropBlanks ls)).2).2).1 = _
    exact collectBullets_eq_spec _

/-- Witness for C4 on a concrete item body (meta taken from a `**`-starting
line, a `# ` heading taken as subtitle). -/
theorem C4_item_fields_witness :
    (parseItem ["**Acme | 2020**", "# Sub", "- x"]).1 =
      (match (["**Acme | 2020**", "# Sub", "- x"] : List String).find?
          (fun l => !(pyStrip l = "")) with
      | some l =>
        if pyStartsWith (pyStrip l) "**" = true
        then pyStrip (removeSS (pyStrip l)) else ""
      | none => "") ∧
    (parseItem ["**Acme | 2020**", "# Sub", "- x"]).2.1 = "# Sub" :=
  ⟨(C4_item_fields ["**Acme | 2020**", "# Sub", "- x"]).1,
   by
    have h := (C4_item_fields ["**Acme | 2020**", "# Sub", "- x"]).2.1
      "Acme | 2020" ["# Sub", "- x"] (by decide)
    rw [h]
    decide⟩

/-- C7: every parsed item is routed to `projects` exactly when the governing
lower-cased section name contains "project" or "highlight", and to
`experience` otherwise — including when no section heading has been seen; the
two lists only ever grow by appending, so items are never dropped and
document order is preserved. -/
theorem C7_item_routing :
    (∀ (fuel : Nat) (lines : List String) (cs : String) (data : ResumeRecord),
      ∃ es ps, (parseLoop fuel lines cs data).experience = data.experience ++ es ∧
        (parseLoop fuel lines cs data).projects = data.projects ++ ps) ∧
    (∀ sline tline : String, pyStrip sline = sline → pyStartsWith sline "## " = true →
      pyStrip tline = tline → pyStartsWith tline "### " = true →
      (((containsSubStr "project" (pyLower (pyStrip (pyDropStr 3 sline))) ||
          containsSubStr "highlight" (pyLower (pyStrip (pyDropStr 3 sline)))) = true →
        (parseLines [sline, tline]).projects = [⟨pyStrip (pyDropStr 4 tline), "", "", []⟩] ∧
        (parseLines [sline, tline]).experience = []) ∧
      ((containsSubStr "project" (pyLower (pyStrip (pyDropStr 3 sline))) ||
          containsSubStr "highlight" (pyLower (pyStrip (pyDropStr 3 sline)))) = false →
        (parseLines [sline, tline]).experience = [⟨pyStrip (pyDropStr 4 tline), "", "", []⟩] ∧
        (parseLines [sline, tline]).projects = []))) ∧
    (∀ tline : String, pyStrip tline = tline → pyStartsWith tline "### " = true →
      (parseLines [tline]).experience = [⟨pyStrip (pyDropStr 4 tline), "", "", []⟩] ∧
      (parseLines [tline]).projects = []) := by
  refine ⟨fun fuel => parseLoop_items_monotone fuel, ?_, ?_⟩
  · intro sline tline hs hsw ht htw
    unfold parseLines
    simp only [List.length_cons, List.length_nil]
    simp only [parseLoop, hs, ht]
    rw [if_neg (ne_empty_of_startsWith sline "## " hsw (by decide))]
    rw [if_neg (show ¬ isImageLine sline = true by
      simp [isImageLine_false_of_not_bang sline
        (not_startsWith_of_startsWith sline "## " "![" hsw (by decide) (by decide))])]
    rw [if_neg (show ¬(pyStartsWith sline "# " = true ∧ _) by
      rintro ⟨h, _⟩
      rw [not_startsWith_of_startsWith sline "## " "# " hsw (by decide) (by decide)] at h
      cases h)]
    rw [if_neg (show ¬(pyStartsWith sline "**" = true ∧ _) by
      rintro ⟨h, _⟩
      rw [not_startsWith_of_startsWith sline "## " "**" hsw (by decide) (by decide)] at h
      cases h)]
    rw [if_pos hsw]
    rw [if_neg (ne_empty_of_startsWith tline "### " htw (by decide))]
    rw [if_neg (show ¬ isImageLine tline = true by
      simp [isImageLine_false_of_not_bang tline
        (not_startsWith_of_startsWith tline "### " "![" htw (by decide) (by decide))])]
    rw [if_neg (show ¬(pyStartsWith tline "# " = true ∧ _) by
      rintro ⟨h, _⟩
      rw [not_startsWith_of_startsWith tline "### " "# " htw (by decide) (by decide)] at h
      cases h)]
    rw [if_neg (show ¬(pyStartsWith tline "**" = true ∧ _) by
      rintro ⟨h, _⟩
      rw [not_startsWith_of_startsWith tline "### " "**" htw (by decide) (by decide)] at h
      cases h)]
    rw [if_neg (show ¬ pyStartsWith tline "## " = true by
      simp [not_startsWith_of_startsWith tline "### " "## " htw (by decide) (by decide)])]
    rw [if_pos htw]
    constructor
    · intro hc
      rw [if_pos hc]
      constructor
      · simp [emptyRecord, parseItem, itemMeta, itemSubtitle, dropBlanks, collectBullets]
      · simp [emptyRecord]
    · intro hc
      rw [if_neg (by simp [hc])]
      constructor
      · simp [emptyRecord, parseItem, itemMeta, itemSubtitle, dropBlanks, collectBullets]
      · simp [emptyRecord]
  · intro tline ht htw
    unfold parseLines
    simp only [List.length_cons, List.length_nil]
    simp only [parseLoop, ht]
    rw [if_neg (ne_empty_of_startsWith tline "### " htw (by decide))]
    rw [if_neg (show ¬ isImageLine tline = true by
      simp [isImageLine_false_of_not_bang tline
        (not_startsWith_of_startsWith tline "### " "![" htw (by decide) (by decide))])]
    rw [if_neg (show ¬(pyStartsWith tline "# " = true ∧ _) by
      rintro ⟨h, _⟩
      rw [not_startsWith_of_startsWith tline "### " "# " htw (by decide) (by decide)] at h
      cases h)]
    rw [if_neg (show ¬(pyStartsWith tline "**" = true ∧ _) by
      rintro ⟨h, _⟩
      rw [not_startsWith_of_startsWith tline "### " "**" htw (by decide) (by decide)] at h
      cases h)]
    rw [if_neg (show ¬ pyStartsWith tline "## " = true by
      simp [not_startsWith_of_startsWith tline "### " "## " htw (by decide) (by decide)])]
    rw [if_pos htw]
    rw [if_neg (show ¬(containsSubStr "project" "" || containsSubStr "highlight" "") = true
      by decide)]
    constructor
    · simp [emptyRecord, parseItem, itemMeta, itemSubtitle, dropBlanks, collectBullets]
    · simp [emptyRecord]

/-- Witness for C7: `## Project Highlights` routes to projects, a bare `### `
item with no preceding section goes to experience. -/
theorem C7_item_routing_witness :
    (parseLines ["## Project Highlights", "### X"]).projects = [⟨"X", "", "", []⟩] ∧
    (parseLines ["## Project Highlights", "### X"]).experience = [] ∧
    (parseLines ["### Y"]).experience = [⟨"Y", "", "", []⟩] := by
  have h2 := (C7_item_routing.2.1 "## Project Highlights" "### X" (by decide) (by decide)
    (by decide) (by decide)).1 (by decide)
  have h3 := C7_item_routing.2.2 "### Y" (by decide) (by decide)
  refine ⟨?_, h2.2, ?_⟩
  · rw [h2.1]; decide
  · rw [h3.1]; decide

theorem containsSub_tri (p a b c rest : List Char) (hp : p = a ++ b ++ c) :
    containsSub p (a ++ (b ++ (c ++ rest))) = true := by
  subst hp
  rw [show a ++ (b ++ (c ++ rest)) = (a ++ b ++ c) ++ rest by simp [List.append_assoc]]
  exact containsSub_self_append _ _

theorem containsSub_quad (p a b c d rest : List Char) (hp : p = a ++ b ++ c ++ d) :
    containsSub p (a ++ (b ++ (c ++ (d ++ rest)))) = true := by
  subst hp
  rw [show a ++ (b ++ (c ++ (d ++ rest))) = (a ++ b ++ c ++ d) ++ rest by
    simp [List.append_assoc]]
  exact containsSub_self_append _ _

/-- C2: the rendered document never contains a raw `<script>` no matter what
any record field or argument holds (every interpolation point escapes its
value); a name containing `<script>` shows up escaped as `&lt;script&gt;`;
and the template's own structural markup is emitted unescaped. -/
theorem C2_build_html_escapes (d : ResumeRecord) (img lab : String) :
    containsSubStr "<script>" (build_html d img lab) = false ∧
    (containsSubStr "<script>" d.name = true →
      containsSubStr "&lt;script&gt;" (build_html d img lab) = true) ∧
    containsSubStr "<main class=\"page\">" (build_html d img lab) = true := by
  refine ⟨?_, ?_, ?_⟩
  · exact (build_html_safe d img lab).1
  · intro h
    unfold containsSubStr at h ⊢
    unfold build_html
    simp only [strData_append, strData_htmlEscape, List.append_assoc]
    apply containsSub_append_right
    apply containsSub_append_left
    have h2 := containsSub_escData "<script>".data d.name.data h
    rw [show escData "<script>".data = "&lt;script&gt;".data by decide] at h2
    exact h2
  · unfold containsSubStr build_html
    simp only [strData_append, List.append_assoc]
    iterate 4 apply containsSub_append_right
    apply containsSub_append_left
    decide

/-- Witness for C2: a record whose name is `<script>` renders with the
escaped form present. -/
theorem C2_build_html_escapes_witness :
    containsSubStr "<script>" ({ emptyRecord with name := "<script>" } : ResumeRecord).name
      = true ∧
    containsSubStr "&lt;script&gt;"
      (build_html { emptyRecord with name := "<script>" } "" "") = true :=
  ⟨by decide,
   (C2_build_html_escapes { emptyRecord with name := "<script>" } "" "").2.1 (by decide)⟩

/-- C8 counterexample: `build_html` performs no placeholder substitution; an
empty profile image URI is interpolated verbatim, so the photo element reads
`src=""`, not the placeholder URI (which is nonempty). -/
theorem C8_placeholder_counterexample :
    containsSubStr "<div class=\"photo\"><img src=\"\" alt=\"\" /></div>"
      (build_html emptyRecord "" "") = true ∧
    placeholderImage ≠ "" := by
  constructor
  · unfold containsSubStr build_html
    simp only [strData_append, strData_htmlEscape,
      show escData (emptyRecord.name).data = ([] : List Char) from rfl,
      show escData ("" : String).data = ([] : List Char) from rfl,
      List.nil_append, List.append_assoc]
    iterate 4 apply containsSub_append_right
    exact containsSub_quad _ _ _ _ _ _ (by decide)
  · decide

/-- C8 amended: the placeholder substitution lives in `main`, not in
`build_html`: when both the command-line profile image and the markdown image
are absent, the resolved profile image is the fixed placeholder URI and the
rendered photo element carries it (HTML-escaped) as its `src` attribute. -/
theorem C8_placeholder_resolution (md lab : String)
    (h : (parse_markdown md).image_from_md = "") :
    containsSubStr
      "src=\"https://dummyimage.com/400x400/e6eef7/7f8fa3.jpg&amp;text=Profile\" alt=\""
      (render_from_md md "" lab) = true := by
  rw [show render_from_md md "" lab = build_html (parse_markdown md)
      (resolveProfileImage "" (parse_markdown md).image_from_md) lab from rfl]
  rw [h]
  rw [show resolveProfileImage "" "" = placeholderImage by decide]
  unfold containsSubStr build_html
  simp only [strData_append, strData_htmlEscape, List.append_assoc]
  iterate 6 apply containsSub_append_right
  rw [show escData placeholderImage.data =
      ("https://dummyimage.com/400x400/e6eef7/7f8fa3.jpg&amp;text=Profile" : String).data
    by decide]
  exact containsSub_tri _ _ _ _ _ (by decide)

/-- Witness for C8 on an input without any image line. -/
theorem C8_placeholder_resolution_witness :
    (parse_markdown "# Jane").image_from_md = "" ∧
    containsSubStr
      "src=\"https://dummyimage.com/400x400/e6eef7/7f8fa3.jpg&amp;text=Profile\" alt=\""
      (render_from_md "# Jane" "" "") = true :=
  ⟨by decide, C8_placeholder_resolution "# Jane" "" (by decide)⟩

/-- C10: the main column's `h1` headline is the fixed constant text
`iOS Engineer Resume`, whatever the record or the arguments are. -/
theorem C10_fixed_headline (d : ResumeRecord) (img lab : String) :
    containsSubStr "<h1>iOS Engineer Resume</h1>" (build_html d img lab) = true := by
  unfold containsSubStr build_html
  simp only [strData_append, List.append_assoc]
  iterate 20 apply containsSub_append_right
  apply containsSub_append_left
  decide

end Resume
